import Mathlib

/-!
Verification development for the review ingestion / sentiment / anomaly
pipeline of the `anomaly-ai-airbnb-insight` repository.

The TypeScript sources are shallowly embedded here:

* strings are `List Char` (JavaScript UTF-16 strings restricted to the
  code points actually exercised by the pipeline);
* JavaScript `number` is embedded as `ℚ` (exact arithmetic; every
  numeric scenario proved below was additionally checked to behave
  identically under IEEE-754 double semantics);
* `new Date(s)` is modelled by an explicit parser for the ISO-style
  date strings (`YYYY-MM-DD`, optionally followed by ` HH:MM:SS`) that
  flow through this pipeline, interpreted in UTC;
* JavaScript truthiness of a string field is emptiness of the list.

Sources embedded: `SentimentAnalyzer` (sentiment utility module),
`DataPreprocessor` (src/utils/dataPreprocessing.ts, first variant,
the one whose line ranges the claims cite), `CSVParser`
(src/utils/csvParser.ts) and the cleaned-CSV export of
`CSVUpload.tsx`.
-/

/-- Whitespace test used to model JavaScript `String.prototype.trim`
and the `\s` regexp class, restricted to the ASCII range plus NBSP. -/
def isSpaceChar (c : Char) : Bool :=
  c.toNat = 32 ∨ c.toNat = 9 ∨ c.toNat = 10 ∨ c.toNat = 11 ∨
  c.toNat = 12 ∨ c.toNat = 13 ∨ c.toNat = 160

/-- Model of JavaScript `s.trim()`: drop leading and trailing whitespace. -/
def jsTrim (s : List Char) : List Char :=
  ((s.dropWhile isSpaceChar).reverse.dropWhile isSpaceChar).reverse

/-- Model of `String.prototype.toLowerCase` on the ASCII letters this
pipeline manipulates. -/
def jsToLower (s : List Char) : List Char :=
  s.map Char.toLower

/-- JavaScript `a || b` on strings: `b` when `a` is empty (falsy). -/
def jsOr (a b : List Char) : List Char :=
  if a = [] then b else a

/-- Decimal digit character (used to model number-to-string padding in
`toISOString` and template literals). -/
def digitOfNat (n : Nat) : Char :=
  Char.ofNat (48 + n % 10)

/-- Numeric value of a decimal digit character, `none` otherwise. -/
def digitVal (c : Char) : Option Nat :=
  if 48 ≤ c.toNat ∧ c.toNat ≤ 57 then some (c.toNat - 48) else none

/-- Two-digit zero-padded decimal rendering (`String(x).padStart(2,'0')`
for `x < 100`). -/
def pad2 (n : Nat) : List Char :=
  [digitOfNat (n / 10), digitOfNat n]

/-- Four-digit zero-padded decimal rendering (year field of
`toISOString`, for years below 10000). -/
def pad4 (n : Nat) : List Char :=
  [digitOfNat (n / 1000), digitOfNat (n / 100), digitOfNat (n / 10), digitOfNat n]

/-- Decimal rendering of a natural number, most significant digit
first (models `String(n)` in template literals); fuelled so that the
kernel can evaluate it. -/
def natToCharsAux : Nat → Nat → List Char
  | 0, _ => []
  | fuel + 1, n =>
    if n < 10 then [digitOfNat n]
    else natToCharsAux fuel (n / 10) ++ [digitOfNat n]

/-- Decimal rendering of a natural number (`String(n)`). -/
def natToChars (n : Nat) : List Char :=
  natToCharsAux (n + 1) n

/-- One step of `String.prototype.replace` with a global literal
pattern: scan left to right, non-overlapping, replacement text not
rescanned.  Fuelled (any fuel of at least the text length computes the
replacement) so that the kernel can evaluate it. -/
def replaceAllF : Nat → List Char → List Char → List Char → List Char
  | 0, _, _, s => s
  | _ + 1, _, _, [] => []
  | fuel + 1, pat, rep, c :: rest =>
    if (c :: rest).take pat.length = pat then
      rep ++ replaceAllF fuel pat rep ((c :: rest).drop pat.length)
    else
      c :: replaceAllF fuel pat rep rest

/-- Full `s.replace` with a global literal pattern. -/
def replaceAll (pat rep s : List Char) : List Char :=
  replaceAllF s.length pat rep s

/-- A calendar timestamp as produced by the modelled `new Date(...)`
parser (UTC components). -/
structure JSDate where
  year : Nat
  month : Nat
  day : Nat
  hour : Nat
  minute : Nat
  second : Nat
deriving DecidableEq, Repr

/-- Gregorian leap-year rule (ECMAScript time arithmetic). -/
def isLeapYear (y : Nat) : Bool :=
  y % 4 = 0 ∧ (y % 100 ≠ 0 ∨ y % 400 = 0)

/-- Number of days of a month (`m` between 1 and 12). -/
def daysInMonth (y m : Nat) : Nat :=
  if m = 2 then (if isLeapYear y then 29 else 28)
  else if m = 4 ∨ m = 6 ∨ m = 9 ∨ m = 11 then 30
  else 31

/-- Component ranges under which ECMAScript accepts an ISO-style date
string (out-of-range components give an Invalid Date). -/
def validJSDate (d : JSDate) : Bool :=
  1 ≤ d.month ∧ d.month ≤ 12 ∧ 1 ≤ d.day ∧ d.day ≤ daysInMonth d.year d.month ∧
  d.hour < 24 ∧ d.minute < 60 ∧ d.second < 60

/-- Read two decimal digits. -/
def read2 : List Char → Option (Nat × List Char)
  | a :: b :: rest => do
    let x ← digitVal a
    let y ← digitVal b
    some (10 * x + y, rest)
  | _ => none

/-- Read four decimal digits. -/
def read4 : List Char → Option (Nat × List Char)
  | a :: b :: c :: d :: rest => do
    let x ← digitVal a
    let y ← digitVal b
    let z ← digitVal c
    let w ← digitVal d
    some (1000 * x + 100 * y + 10 * z + w, rest)
  | _ => none

/-- Consume one expected character. -/
def expectChar (c : Char) : List Char → Option (List Char)
  | x :: rest => if x = c then some rest else none
  | [] => none

/-- Model of `new Date(s)` for the date strings that flow through this
pipeline: `YYYY-MM-DD` or `YYYY-MM-DD HH:MM:SS` (the second shape is
what `standardizeDate` emits and every major engine parses), read as
UTC; any other shape, and any out-of-range component, is an Invalid
Date (`none`). -/
def parseJSDate (s : List Char) : Option JSDate := do
  let (y, s) ← read4 s
  let s ← expectChar '-' s
  let (mo, s) ← read2 s
  let s ← expectChar '-' s
  let (d, s) ← read2 s
  let (h, mi, sec) ←
    match s with
    | [] => some (0, 0, 0)
    | ' ' :: s => do
      let (h, s) ← read2 s
      let s ← expectChar ':' s
      let (mi, s) ← read2 s
      let s ← expectChar ':' s
      let (sec, s) ← read2 s
      if s = [] then some (h, mi, sec) else none
    | _ => none
  let dt : JSDate := ⟨y, mo, d, h, mi, sec⟩
  if validJSDate dt then some dt else none

/-- The canonical textual timestamp
`date.toISOString().slice(0, 19).replace('T', ' ')` of a parsed date
(years below 10000). -/
def formatJSDate (d : JSDate) : List Char :=
  pad4 d.year ++ '-' :: pad2 d.month ++ '-' :: pad2 d.day ++
    ' ' :: pad2 d.hour ++ ':' :: pad2 d.minute ++ ':' :: pad2 d.second

/-- Fuelled binary search for the integer square root (lower bound
`lo` always satisfies `lo * lo ≤ n`, upper bound `hi` shrinks). -/
def natSqrtAux : Nat → Nat → Nat → Nat → Nat
  | 0, lo, _, _ => lo
  | fuel + 1, lo, hi, n =>
    if hi ≤ lo then lo
    else
      let mid := (lo + hi + 1) / 2
      if mid * mid ≤ n then natSqrtAux fuel mid hi n
      else natSqrtAux fuel lo (mid - 1) n

/-- Integer square root, exact on perfect squares (kernel-evaluable
replacement for the library square root). -/
def natSqrt (n : Nat) : Nat :=
  natSqrtAux n 0 n n

/-- Model of `Math.sqrt` on the nonnegative rationals this pipeline
takes square roots of: exact whenever the argument is the square of a
rational (every standard deviation appearing in the proved scenarios
is of that form), and a floor-style approximation otherwise. -/
def ratSqrt (q : ℚ) : ℚ :=
  (natSqrt (q.num.toNat * q.den) : ℚ) / (q.den : ℚ)

/-- Model of `Number(x.toFixed(digits))`: round to `digits` decimal
places, ties away from zero. -/
def toFixedQ (digits : Nat) (q : ℚ) : ℚ :=
  let p : ℚ := (10 : ℚ) ^ digits
  if 0 ≤ q then (⌊q * p + 1 / 2⌋ : ℚ) / p else -((⌊-q * p + 1 / 2⌋ : ℚ) / p)

/-- Decimal string of `x.toFixed(2)` (used only inside human-readable
reason strings). -/
def toFixed2Chars (q : ℚ) : List Char :=
  let r := toFixedQ 2 q
  let n := (r * 100).num
  let sign : List Char := if n < 0 then ['-'] else []
  let a := n.natAbs
  sign ++ natToChars (a / 100) ++ '.' :: pad2 (a % 100)

/-- Sentiment label of `SentimentResult`. -/
inductive SentimentLabel where
  | negative
  | neutral
  | positive
deriving DecidableEq, Repr

/-- Record `SentimentResult` of the sentiment utility module. -/
structure SentimentResult where
  score : ℚ
  magnitude : ℚ
  label : SentimentLabel
deriving DecidableEq, Repr

/-- Record `TimelineSentiment` of the sentiment utility module (`change` is
the optional month-over-month percent change field). -/
structure TimelineSentiment where
  month : List Char
  averageSentiment : ℚ
  reviewCount : Nat
  change : Option ℚ
deriving DecidableEq, Repr

/-- Anomaly classification of `AnomalyMetadata`. -/
inductive AnomalyType where
  | suspicious
  | complaint
  | language
  | sentiment_negative
  | sentiment_positive
  | sentiment_neutral
deriving DecidableEq, Repr

/-- Record `AnomalyMetadata` of the sentiment utility module. -/
structure AnomalyMetadata where
  review_id : List Char
  type : AnomalyType
  reason : List Char
  /-- The source names this field `example`, a reserved word here. -/
  excerpt : List Char
  neighbourhood : List Char
  created_at : List Char
  sentiment_score : ℚ
  anomaly_score : ℚ
deriving DecidableEq, Repr

/-- Input row shape of `SentimentAnalyzer.detectAnomalies`. -/
structure AnalyzerRow where
  review_id : List Char
  raw_text : List Char
  neighbourhood : List Char
  created_at : List Char
  language : List Char
  sentiment_score : Option ℚ
  anomaly_score : Option ℚ
deriving DecidableEq, Repr

namespace SentimentAnalyzer

/-- Word list `SentimentAnalyzer.positiveWords`. -/
def positiveWords : List (List Char) :=
  ["amazing".toList, "awesome".toList, "excellent".toList, "fantastic".toList,
   "great".toList, "wonderful".toList, "perfect".toList, "beautiful".toList,
   "clean".toList, "comfortable".toList, "friendly".toList, "helpful".toList,
   "lovely".toList, "nice".toList, "good".toList, "best".toList,
   "enjoyed".toList, "recommend".toList, "love".toList, "convenient".toList,
   "spacious".toList, "cozy".toList, "stunning".toList, "incredible".toList,
   "superb".toList]

/-- Word list `SentimentAnalyzer.negativeWords`. -/
def negativeWords : List (List Char) :=
  ["terrible".toList, "awful".toList, "horrible".toList, "bad".toList,
   "worst".toList, "dirty".toList, "noisy".toList, "uncomfortable".toList,
   "rude".toList, "broken".toList, "disappointing".toList, "poor".toList,
   "ugly".toList, "expensive".toList, "cramped".toList, "cold".toList,
   "hot".toList, "smelly".toList, "disgusting".toList, "unclean".toList,
   "outdated".toList, "overpriced".toList, "unfriendly".toList,
   "unreliable".toList]

/-- Word list `SentimentAnalyzer.intensifiers`. -/
def intensifiers : List (List Char) :=
  ["very".toList, "extremely".toList, "incredibly".toList, "absolutely".toList,
   "totally".toList, "completely".toList, "quite".toList, "really".toList,
   "so".toList, "too".toList, "highly".toList]

/-- Word list `SentimentAnalyzer.negations`. -/
def negations : List (List Char) :=
  ["not".toList, "no".toList, "never".toList, "nothing".toList,
   "nowhere".toList, "nobody".toList, "none".toList, "neither".toList,
   "nor".toList, "hardly".toList, "barely".toList, "scarcely".toList]

/-- The `\w` regexp class (ASCII word character). -/
def isWordChar (c : Char) : Bool :=
  (48 ≤ c.toNat ∧ c.toNat ≤ 57) ∨ (65 ≤ c.toNat ∧ c.toNat ≤ 90) ∨
  (97 ≤ c.toNat ∧ c.toNat ≤ 122) ∨ c.toNat = 95

/-- The map `text.replace` with pattern non-word-non-space to space. -/
def punctToSpace (s : List Char) : List Char :=
  s.map fun c => if isWordChar c ∨ isSpaceChar c then c else ' '

/-- The split on whitespace runs followed by dropping empty tokens. -/
def splitWsAux : List Char → List Char → List (List Char)
  | [], acc => if acc = [] then [] else [acc.reverse]
  | c :: rest, acc =>
    if isSpaceChar c then
      if acc = [] then splitWsAux rest []
      else acc.reverse :: splitWsAux rest []
    else splitWsAux rest (c :: acc)

/-- Tokenisation of `analyzeSentiment`: lowercase, strip punctuation
to spaces, split on whitespace runs, drop empty tokens. -/
def tokenize (text : List Char) : List (List Char) :=
  splitWsAux (punctToSpace (jsToLower text)) []

/-- One iteration of the scoring loop of `analyzeSentiment` at token
index `i`: accumulated `(score, wordCount)` in, accumulated pair out. -/
def scoreStep (ws : List (List Char)) (acc : ℚ × Nat) (i : Nat) : ℚ × Nat :=
  let word := ws.getD i []
  let sentiment : ℚ :=
    if positiveWords.contains word then 1
    else if negativeWords.contains word then -1
    else 0
  if sentiment ≠ 0 then
    let intensity : ℚ :=
      if 0 < i ∧ intensifiers.contains (ws.getD (i - 1) []) then 1.5 else 1
    let lo := i - 3
    let negated := (List.range' lo (i - lo)).any fun j =>
      negations.contains (ws.getD j [])
    let sentiment := if negated then -sentiment else sentiment
    (acc.1 + sentiment * intensity, acc.2 + 1)
  else acc

/-- Embedding of `SentimentAnalyzer.analyzeSentiment`. -/
def analyzeSentiment (text : List Char) : SentimentResult :=
  if text = [] ∨ jsTrim text = [] then ⟨0, 0, .neutral⟩
  else
    let ws := tokenize text
    let acc := (List.range ws.length).foldl (scoreStep ws) (0, 0)
    let normalizedScore : ℚ := if 0 < acc.2 then acc.1 / (acc.2 : ℚ) else 0
    let clampedScore := max (-1) (min 1 normalizedScore)
    let magnitude := |clampedScore|
    let label : SentimentLabel :=
      if clampedScore > 0.1 then .positive
      else if clampedScore < -0.1 then .negative
      else .neutral
    ⟨clampedScore, magnitude, label⟩

/-- Embedding of `SentimentAnalyzer.validateDate`: parseable date with year between
2008 and the current year (2026 at verification time, modelling
`new Date().getFullYear()`). -/
def validateDate (dateString : List Char) : Bool :=
  if dateString = [] then false
  else
    match parseJSDate dateString with
    | none => false
    | some d => 2008 ≤ d.year ∧ d.year ≤ 2026

end SentimentAnalyzer

/-- A neighbourhood (or dataset-wide) sentiment baseline. -/
structure Baseline where
  mean : ℚ
  stdDev : ℚ
  count : Nat
deriving DecidableEq, Repr

/-- Input row shape of `calculateTimelineSentiment`. -/
structure TimelineRow where
  created_at : List Char
  raw_text : List Char
deriving DecidableEq, Repr

namespace SentimentAnalyzer

/-- The mean `sentiments.reduce((sum, s) => lambda) / sentiments.length`. -/
def meanQ (l : List ℚ) : ℚ :=
  l.foldl (fun a b => a + b) 0 / (l.length : ℚ)

/-- The population variance of the score list as the source computes it. -/
def varianceQ (l : List ℚ) (m : ℚ) : ℚ :=
  l.foldl (fun a s => a + (s - m) ^ 2) 0 / (l.length : ℚ)

/-- The per-row sentiment score of `detectAnomalies`: the supplied
`sentiment_score` when present, otherwise the lexicon score (only the
`score` component of the mapped object is read downstream). -/
def sentimentScoreOf (row : AnalyzerRow) : ℚ :=
  match row.sentiment_score with
  | some s => s
  | none => (analyzeSentiment row.raw_text).score

/-- The rows surviving the invalid-date filter of `detectAnomalies`. -/
def validRows (data : List AnalyzerRow) : List AnalyzerRow :=
  data.filter fun r => validateDate r.created_at

/-- The neighbourhood group of `neighbourhoodGroups` keyed by `n`. -/
def groupOf (data : List AnalyzerRow) (n : List Char) : List AnalyzerRow :=
  (validRows data).filter fun r => r.neighbourhood = n

/-- The per-neighbourhood baseline of `neighbourhoodBaselines`:
mean and standard deviation of the group scores, the standard
deviation floored at 0.2. -/
def groupBaseline (data : List AnalyzerRow) (n : List Char) : Baseline :=
  let scores := (groupOf data n).map sentimentScoreOf
  let m := meanQ scores
  ⟨m, max (ratSqrt (varianceQ scores m)) 0.2, (groupOf data n).length⟩

/-- The dataset-wide fallback baseline (`overallMean` / `overallStdDev`):
no floor is applied to this standard deviation. -/
def overallBaseline (data : List AnalyzerRow) : Baseline :=
  let scores := (validRows data).map sentimentScoreOf
  let m := meanQ scores
  ⟨m, ratSqrt (varianceQ scores m), (validRows data).length⟩

/-- The baseline `detectAnomalies` compares a row against: the row's
neighbourhood baseline when its group has at least 5 rows, the
dataset-wide fallback otherwise. -/
def baselineFor (data : List AnalyzerRow) (row : AnalyzerRow) : Baseline :=
  if 5 ≤ (groupOf data row.neighbourhood).length then
    groupBaseline data row.neighbourhood
  else overallBaseline data

/-- The effective anomaly score of a row: the externally supplied
`anomaly_score` when present, otherwise the z-score of the row's
sentiment against its baseline. -/
def effectiveAnomalyScore (data : List AnalyzerRow) (row : AnalyzerRow) : ℚ :=
  match row.anomaly_score with
  | some a => a
  | none =>
    let b := baselineFor data row
    |sentimentScoreOf row - b.mean| / b.stdDev

/-- The excerpt `row.raw_text.substring(0, 100)` plus an ellipsis for longer texts. -/
def excerptOf (row : AnalyzerRow) : List Char :=
  row.raw_text.take 100 ++ (if 100 < row.raw_text.length then "...".toList else [])

/-- The classification step of `detectAnomalies` for one valid row:
the `if / else if / else if` chain of the source pushes at most one
`AnomalyMetadata` per row, modelled as an `Option`. -/
def classifyRow (data : List AnalyzerRow) (row : AnalyzerRow) : Option AnomalyMetadata :=
  let b := baselineFor data row
  let score := sentimentScoreOf row
  let anomalyScore := effectiveAnomalyScore data row
  if anomalyScore > 2 then
    let typeReason : AnomalyType × List Char :=
      if score < b.mean - 1.5 * b.stdDev then
        (.sentiment_negative,
          "Unusually negative sentiment for ".toList ++ row.neighbourhood ++
          ". Score: ".toList ++ toFixed2Chars score ++
          ", Neighbourhood avg: ".toList ++ toFixed2Chars b.mean)
      else if score > b.mean + 1.5 * b.stdDev then
        (.sentiment_positive,
          "Unusually positive sentiment for ".toList ++ row.neighbourhood ++
          ". Score: ".toList ++ toFixed2Chars score ++
          ", Neighbourhood avg: ".toList ++ toFixed2Chars b.mean)
      else
        (.sentiment_neutral,
          "Neutral sentiment with low emotional engagement, potentially indicating generic or template content. Anomaly score: ".toList ++
          toFixed2Chars anomalyScore)
    some ⟨row.review_id, typeReason.1, typeReason.2, excerptOf row,
      row.neighbourhood, row.created_at, score, anomalyScore⟩
  else if row.raw_text.length < 15 then
    some ⟨row.review_id, .suspicious,
      "Extremely short review (likely spam or low-effort)".toList,
      row.raw_text, row.neighbourhood, row.created_at, score, anomalyScore⟩
  else if row.language ≠ "en".toList ∧ anomalyScore > 1.5 then
    some ⟨row.review_id, .language,
      "Non-English content (".toList ++ row.language ++
        ") with unusual sentiment pattern".toList,
      excerptOf row, row.neighbourhood, row.created_at, score, anomalyScore⟩
  else none

/-- Embedding of `SentimentAnalyzer.detectAnomalies`. -/
def detectAnomalies (data : List AnalyzerRow) : List AnomalyMetadata :=
  if validRows data = [] then []
  else (validRows data).filterMap (classifyRow data)

/-- Embedding of `SentimentAnalyzer.calculateAverageSentiment`. -/
def calculateAverageSentiment (texts : List (List Char)) : SentimentResult :=
  if texts = [] then ⟨0, 0, .neutral⟩
  else
    let sentiments := texts.map analyzeSentiment
    let avgScore := meanQ (sentiments.map (·.score))
    let avgMagnitude := meanQ (sentiments.map (·.magnitude))
    let label : SentimentLabel :=
      if avgScore > 0.1 then .positive
      else if avgScore < -0.1 then .negative
      else .neutral
    ⟨avgScore, avgMagnitude, label⟩

/-- The `YYYY-MM` grouping key of `calculateTimelineSentiment`
(`getFullYear` / zero-padded `getMonth() + 1` of the parsed date,
empty for the rows the valid-date filter already removed). -/
def monthKey (row : TimelineRow) : List Char :=
  match parseJSDate row.created_at with
  | some d => pad4 d.year ++ '-' :: pad2 d.month
  | none => []

/-- The rows surviving the invalid-date filter of
`calculateTimelineSentiment`. -/
def timelineValid (data : List TimelineRow) : List TimelineRow :=
  data.filter fun r => validateDate r.created_at

/-- The distinct month keys in first-occurrence order (JavaScript
object string keys enumerate in insertion order). -/
def monthKeys (data : List TimelineRow) : List (List Char) :=
  ((timelineValid data).map monthKey).eraseDups

/-- The review texts grouped under one month key. -/
def textsFor (data : List TimelineRow) (k : List Char) : List (List Char) :=
  (((timelineValid data).filter fun r => monthKey r = k).map (·.raw_text))

/-- Display form MM/YY of a `YYYY-MM` key, via `new Date` of the key plus day 01. -/
def formatMonth (k : List Char) : List Char :=
  match parseJSDate (k ++ "-01".toList) with
  | some d => pad2 d.month ++ '/' :: (pad4 d.year).drop 2
  | none => []

/-- One pre-sort timeline bucket. -/
def bucketFor (data : List TimelineRow) (k : List Char) : TimelineSentiment :=
  let texts := textsFor data k
  let avg := calculateAverageSentiment texts
  ⟨formatMonth k, toFixedQ 3 ((avg.score + 1) / 2), texts.length, none⟩

/-- Sort key of the timeline comparator: the bucket's `MM/YY` label
parsed back and mapped to a month index; the `Date.getTime`
comparison of the source is strictly monotone in this index. -/
def monthSortKey (m : List Char) : Nat :=
  match m with
  | [a, b, '/', c, d] =>
    (2000 + 10 * (digitVal c).getD 0 + (digitVal d).getD 0) * 12 +
      (10 * (digitVal a).getD 0 + (digitVal b).getD 0)
  | _ => 0

/-- Insertion of one element into a sorted list. -/
def insertLe (le : TimelineSentiment → TimelineSentiment → Bool)
    (x : TimelineSentiment) : List TimelineSentiment → List TimelineSentiment
  | [] => [x]
  | y :: rest => if le x y then x :: y :: rest else y :: insertLe le x rest

/-- Sorting by a comparator; the timeline keys are pairwise distinct,
so this produces the unique sorted arrangement `Array.prototype.sort`
produces. -/
def sortLe (le : TimelineSentiment → TimelineSentiment → Bool) :
    List TimelineSentiment → List TimelineSentiment
  | [] => []
  | x :: rest => insertLe le x (sortLe le rest)

/-- The month-over-month pass of `calculateTimelineSentiment`: every
bucket after the first gets
`change = (cur - prev) / prev * 100` rounded to one decimal, with no
guard against a zero previous average (the rational embedding of that
unguarded division carries a junk value where the source computes
`Infinity` or `NaN`). -/
def addChanges (tl : List TimelineSentiment) : List TimelineSentiment :=
  tl.enum.map fun p =>
    if 0 < p.1 then
      let prev := (tl.getD (p.1 - 1) ⟨[], 0, 0, none⟩).averageSentiment
      let chg := toFixedQ 1 ((p.2.averageSentiment - prev) / prev * 100)
      { p.2 with change := some chg }
    else p.2

/-- Embedding of `SentimentAnalyzer.calculateTimelineSentiment`. -/
def calculateTimelineSentiment (data : List TimelineRow) : List TimelineSentiment :=
  if timelineValid data = [] then []
  else
    addChanges (sortLe
      (fun a b => monthSortKey a.month ≤ monthSortKey b.month)
      ((monthKeys data).map (bucketFor data)))

end SentimentAnalyzer

/-- A raw parsed record as handed to `preprocessData`: the six
recognized header fields, each a string (missing trailing fields are
empty strings). -/
structure RawRow where
  review_id : List Char
  listing_id : List Char
  neighbourhood : List Char
  created_at : List Char
  language : List Char
  raw_text : List Char
deriving DecidableEq, Repr

/-- Record `CleanedRow` of src/utils/dataPreprocessing.ts. -/
structure CleanedRow where
  review_id : List Char
  listing_id : List Char
  neighbourhood : List Char
  created_at : List Char
  language : List Char
  raw_text : List Char
  needs_translation : Bool
deriving DecidableEq, Repr

/-- Record `PreprocessingReport` of src/utils/dataPreprocessing.ts (the
language distribution is an association list in insertion order,
modelling JavaScript object keys). -/
structure PreprocessingReport where
  originalRows : Nat
  cleanedRows : Nat
  removedRows : Nat
  duplicatesRemoved : Nat
  invalidDatesRemoved : Nat
  missingDataRemoved : Nat
  languageDistribution : List (List Char × Nat)
  nonEnglishCount : Nat
  errors : List (List Char)
deriving DecidableEq, Repr

namespace DataPreprocessor

/-- Embedding of `DataPreprocessor.cleanText` (first variant): trim, then fix the
listed UTF-8-as-Latin-1 mojibake sequences in order. -/
def cleanText (text : List Char) : List Char :=
  if text = [] then []
  else
    let t := jsTrim text
    let t := replaceAll ['â', '€', '™'] [Char.ofNat 39] t
    let t := replaceAll ['â', '€', 'œ'] ['"'] t
    let t := replaceAll ['â', '€', Char.ofNat 157] ['"'] t
    let t := replaceAll ['â', '€', '"'] ['—'] t
    let t := replaceAll ['Ã', '¡'] ['á'] t
    let t := replaceAll ['Ã', '©'] ['é'] t
    let t := replaceAll ['Ã', Char.ofNat 173] ['í'] t
    let t := replaceAll ['Ã', '³'] ['ó'] t
    let t := replaceAll ['Ã', 'º'] ['ú'] t
    replaceAll ['Ã', '±'] ['ñ'] t

/-- Embedding of `DataPreprocessor.validateDate` (first variant): parseable date
with year strictly between 1900 and 2030. -/
def validateDate (dateString : List Char) : Bool :=
  if dateString = [] then false
  else
    match parseJSDate dateString with
    | none => false
    | some d => 1900 < d.year ∧ d.year < 2030

/-- Embedding of `DataPreprocessor.standardizeDate` (first variant):
`toISOString().slice(0, 19).replace('T', ' ')`; only reached on rows
whose date already validated. -/
def standardizeDate (dateString : List Char) : List Char :=
  match parseJSDate dateString with
  | some d => formatJSDate d
  | none => []

/-- The cleaning of one accepted row inside `preprocessData`
(first variant): note that `needs_translation` compares the
lower-cased but *untrimmed* language tag against `en`, while the
stored `language` field is lower-cased and trimmed. -/
def cleanRow (r : RawRow) : CleanedRow :=
  ⟨jsTrim r.review_id,
   jsTrim r.listing_id,
   cleanText (jsOr r.neighbourhood []),
   standardizeDate r.created_at,
   jsTrim (jsToLower (jsOr r.language "en".toList)),
   cleanText r.raw_text,
   decide (jsToLower (jsOr r.language "en".toList) ≠ "en".toList)⟩

/-- Mutable loop state of `preprocessData`. -/
structure PPState where
  seen : List (List Char)
  cleaned : List CleanedRow
  missingDataRemoved : Nat
  duplicatesRemoved : Nat
  invalidDatesRemoved : Nat
  removedRows : Nat
  langDist : List (List Char × Nat)
  nonEnglishCount : Nat
  errors : List (List Char)
deriving DecidableEq, Repr

/-- The initial loop state. -/
def initState : PPState := ⟨[], [], 0, 0, 0, 0, [], 0, []⟩

/-- Bump of the language count on an insertion-ordered association list. -/
def bumpLang (lang : List Char) : List (List Char × Nat) → List (List Char × Nat)
  | [] => [(lang, 1)]
  | (k, v) :: rest =>
    if k = lang then (k, v + 1) :: rest else (k, v) :: bumpLang lang rest

/-- The removal reason string `Row N: reason` (1-based row number). -/
def rowMsg (idx : Nat) (reason : List Char) : List Char :=
  "Row ".toList ++ natToChars (idx + 1) ++ ": ".toList ++ reason

/-- One iteration of the `preprocessData` loop (first variant): the
three checks in source order, first failure wins; accepted rows are
cleaned and appended. -/
def ppStep (idx : Nat) (r : RawRow) (st : PPState) : PPState :=
  if r.review_id = [] ∨ r.raw_text = [] then
    { st with missingDataRemoved := st.missingDataRemoved + 1,
              removedRows := st.removedRows + 1,
              errors := st.errors ++ [rowMsg idx "missing review_id or raw_text".toList] }
  else if st.seen.contains r.review_id then
    { st with duplicatesRemoved := st.duplicatesRemoved + 1,
              removedRows := st.removedRows + 1,
              errors := st.errors ++ [rowMsg idx "duplicate review_id".toList] }
  else if ¬ validateDate r.created_at then
    { st with invalidDatesRemoved := st.invalidDatesRemoved + 1,
              removedRows := st.removedRows + 1,
              errors := st.errors ++ [rowMsg idx "invalid date format".toList] }
  else
    let c := cleanRow r
    { st with cleaned := st.cleaned ++ [c],
              seen := st.seen ++ [c.review_id],
              langDist := bumpLang c.language st.langDist,
              nonEnglishCount := st.nonEnglishCount + (if c.needs_translation then 1 else 0) }

/-- The `preprocessData` loop over the rows, carrying the 0-based
index (JavaScript `rawData.indexOf(row)` under reference identity). -/
def ppGo (idx : Nat) (rows : List RawRow) (st : PPState) : PPState :=
  match rows with
  | [] => st
  | r :: rest => ppGo (idx + 1) rest (ppStep idx r st)

/-- Embedding of `DataPreprocessor.preprocessData` (first variant). -/
def preprocessData (rawData : List RawRow) : List CleanedRow × PreprocessingReport :=
  let st := ppGo 0 rawData initState
  (st.cleaned,
   ⟨rawData.length, st.cleaned.length, st.removedRows, st.duplicatesRemoved,
    st.invalidDatesRemoved, st.missingDataRemoved, st.langDist,
    st.nonEnglishCount, st.errors⟩)

/-- A `CleanedRow` fed back into `preprocessData` (the second run of
the idempotence property): only the six input fields are read. -/
def toRaw (c : CleanedRow) : RawRow :=
  ⟨c.review_id, c.listing_id, c.neighbourhood, c.created_at, c.language, c.raw_text⟩

end DataPreprocessor

namespace CSVParser

/-- Append `line` to the accumulated list when its trimmed form is
non-empty (`if (currentLine.trim()) lines.push(currentLine)`). -/
def pushLine (line : List Char) (rest : List (List Char)) : List (List Char) :=
  if jsTrim line = [] then rest else line :: rest

/-- The character scan of `CSVParser.splitCSVLines`: split the raw
text into logical lines, a quote toggling the `inQuotes` flag, a
doubled quote passed through literally, line breaks inside quotes kept
as content, `\r\n` outside quotes collapsed. -/
def splitLinesAux (s : List Char) (q : Bool) (cur : List Char) : List (List Char) :=
  match s with
  | [] => pushLine cur []
  | c :: rest =>
    if c = '"' then
      if rest.head? = some '"' then splitLinesAux rest.tail q (cur ++ ['"', '"'])
      else splitLinesAux rest (!q) (cur ++ ['"'])
    else if c = '\n' ∨ c = '\r' then
      if q then splitLinesAux rest q (cur ++ [c])
      else
        pushLine cur
          (splitLinesAux (if c = '\r' ∧ rest.head? = some '\n' then rest.tail else rest)
            false [])
    else splitLinesAux rest q (cur ++ [c])
termination_by s.length
decreasing_by
  all_goals simp only [List.length_cons]
  all_goals try split
  all_goals try simp only [List.length_tail]
  all_goals omega

/-- Embedding of `CSVParser.splitCSVLines`. -/
def splitCSVLines (csvText : List Char) : List (List Char) :=
  splitLinesAux csvText false []

/-- Embedding of `CSVParser.cleanValue`: strip one pair of surrounding quotes,
unescape doubled quotes, trim. -/
def cleanValue (value : List Char) : List Char :=
  let value :=
    if value.head? = some '"' ∧ value.getLast? = some '"' then
      (value.drop 1).dropLast
    else value
  jsTrim (replaceAll ['"', '"'] ['"'] value)

/-- The character scan of `CSVParser.parseCSVLine`: split one logical
line into field values; quotes toggle and are dropped, doubled quotes
yield a literal quote, commas split only outside quotes. -/
def parseLineAux (s : List Char) (q : Bool) (cur : List Char) : List (List Char) :=
  match s with
  | [] => [cleanValue cur]
  | c :: rest =>
    if c = '"' then
      if rest.head? = some '"' then parseLineAux rest.tail q (cur ++ ['"'])
      else parseLineAux rest (!q) cur
    else if c = ',' ∧ ¬q then cleanValue cur :: parseLineAux rest false []
    else parseLineAux rest q (cur ++ [c])
termination_by s.length
decreasing_by
  all_goals simp only [List.length_cons]
  all_goals try simp only [List.length_tail]
  all_goals omega

/-- Embedding of `CSVParser.parseCSVLine`. -/
def parseCSVLine (line : List Char) : List (List Char) :=
  parseLineAux line false []

/-- Embedding of `CSVParser.parse`, with each produced record represented by its
values in header position (`row[header] = values[index] || ''`; the
headers in scope are pairwise distinct, so the keyed object of the
source carries exactly this information). -/
def parse (csvText : List Char) : List (List (List Char)) :=
  match splitCSVLines csvText with
  | [] => []
  | headerLine :: dataLines =>
    let headers := parseCSVLine headerLine
    if headers = [] then []
    else
      dataLines.filterMap fun ln =>
        let ln := jsTrim ln
        if ln = [] then none
        else
          let values := parseCSVLine ln
          if values = [] then none
          else some ((List.range headers.length).map fun i => values.getD i [])

end CSVParser

namespace CSVUpload

/-- The fixed header list of `downloadCleanedData`. -/
def exportHeaders : List (List Char) :=
  ["review_id".toList, "listing_id".toList, "neighbourhood".toList,
   "created_at".toList, "language".toList, "raw_text".toList,
   "needs_translation".toList]

/-- One exported field: the cleaned value wrapped in double quotes
(the template literal of `downloadCleanedData`). -/
def serializeField (f : List Char) : List Char :=
  '"' :: f ++ ['"']

/-- One exported row: the quoted fields joined with commas. -/
def serializeRow (fields : List (List Char)) : List Char :=
  List.intercalate [','] (fields.map serializeField)

/-- The cleaned-CSV export of `downloadCleanedData`: header line then
one serialized row per cleaned record, joined with `\n`. -/
def serializeCleanedCSV (rows : List (List (List Char))) : List Char :=
  List.intercalate ['\n'] (List.intercalate [','] exportHeaders :: rows.map serializeRow)

end CSVUpload

section ClaimC3

open SentimentAnalyzer

/-- C3 (counterexample): clamping the normalised score to `[-1, 1]`
makes `analyzeSentiment "very good"` and `analyzeSentiment "good"`
both have magnitude exactly 1, so the intensified phrase does *not*
strictly exceed the plain one in magnitude. -/
theorem c3_magnitude_not_strict :
    (analyzeSentiment "very good".toList).magnitude = 1 ∧
    (analyzeSentiment "good".toList).magnitude = 1 ∧
    ¬((analyzeSentiment "very good".toList).magnitude >
        (analyzeSentiment "good".toList).magnitude) := by
  have hvg : tokenize "very good".toList = ["very".toList, "good".toList] := by decide
  have hg : tokenize "good".toList = ["good".toList] := by decide
  have h1 : analyzeSentiment "very good".toList = ⟨1, 1, .positive⟩ := by
    rw [analyzeSentiment, if_neg (by decide), hvg]
    norm_num +decide [List.range, List.range.loop, List.foldl, scoreStep, List.range']
  have h2 : analyzeSentiment "good".toList = ⟨1, 1, .positive⟩ := by
    rw [analyzeSentiment, if_neg (by decide), hg]
    norm_num +decide [List.range, List.range.loop, List.foldl, scoreStep, List.range']
  rw [h1, h2]
  norm_num

/-- C3 (amended): with the fixed lookback windows,
`analyzeSentiment "not good"` is negative, the magnitude of
`analyzeSentiment "very good"` is at least (not strictly above, both
being clamped to 1) that of `analyzeSentiment "good"`, and
`analyzeSentiment "not very good"` is negative — the 3-token negation
lookback reaches across the intervening intensifier. -/
theorem c3_negation_window :
    (analyzeSentiment "not good".toList).score < 0 ∧
    (analyzeSentiment "very good".toList).magnitude ≥
      (analyzeSentiment "good".toList).magnitude ∧
    (analyzeSentiment "not very good".toList).score < 0 := by
  have hng : tokenize "not good".toList = ["not".toList, "good".toList] := by decide
  have hvg : tokenize "very good".toList = ["very".toList, "good".toList] := by decide
  have hg : tokenize "good".toList = ["good".toList] := by decide
  have hnvg : tokenize "not very good".toList =
      ["not".toList, "very".toList, "good".toList] := by decide
  refine ⟨?_, ?_, ?_⟩
  · rw [analyzeSentiment, if_neg (by decide), hng]
    norm_num +decide [List.range, List.range.loop, List.foldl, scoreStep, List.range']
  · have h1 : analyzeSentiment "very good".toList = ⟨1, 1, .positive⟩ := by
      rw [analyzeSentiment, if_neg (by decide), hvg]
      norm_num +decide [List.range, List.range.loop, List.foldl, scoreStep, List.range']
    have h2 : analyzeSentiment "good".toList = ⟨1, 1, .positive⟩ := by
      rw [analyzeSentiment, if_neg (by decide), hg]
      norm_num +decide [List.range, List.range.loop, List.foldl, scoreStep, List.range']
    rw [h1, h2]
  · rw [analyzeSentiment, if_neg (by decide), hnvg]
    norm_num +decide [List.range, List.range.loop, List.foldl, scoreStep, List.range']

end ClaimC3

section ClaimC9

open DataPreprocessor

/-- An accepted record whose language tag carries trailing whitespace
(`"en "`): a valid row in every other respect. -/
def c9row : RawRow :=
  ⟨"r1".toList, "l1".toList, "Alfama".toList, "2023-01-10".toList,
   "en ".toList, "lovely place to stay".toList⟩

/-- C9 (counterexample): for the accepted record with language tag
`"en "`, the emitted `CleanedRow` has `language = "en"` but
`needs_translation = true` — `needs_translation` is computed from the
lower-cased *untrimmed* tag, so it differs from
`language ≠ "en"`. -/
theorem c9_needs_translation_mismatch :
    ((preprocessData [c9row]).1.map fun c => (c.language, c.needs_translation)) =
      [("en".toList, true)] := by
  decide

/-- C9 (amended): the emitted `needs_translation` equals
`language != "en"` whenever the lower-cased (defaulted) language tag
carries no surrounding whitespace; in general it is
`lowercase(tag) != "en"` on the untrimmed tag. -/
theorem c9_needs_translation_of_trimmed (r : RawRow)
    (h : jsTrim (jsToLower (jsOr r.language "en".toList)) =
      jsToLower (jsOr r.language "en".toList)) :
    (cleanRow r).needs_translation = true ↔
      (cleanRow r).language ≠ "en".toList := by
  simp only [cleanRow, h, decide_eq_true_eq]

/-- Witness for the amended C9 at a concrete trim-stable record. -/
theorem c9_needs_translation_of_trimmed_witness :
    (jsTrim (jsToLower (jsOr "fr".toList "en".toList)) =
      jsToLower (jsOr "fr".toList "en".toList)) ∧
    ((cleanRow ⟨"r1".toList, "l1".toList, "Alfama".toList, "2023-01-10".toList,
        "fr".toList, "bon sejour vraiment".toList⟩).needs_translation = true ↔
      (cleanRow ⟨"r1".toList, "l1".toList, "Alfama".toList, "2023-01-10".toList,
        "fr".toList, "bon sejour vraiment".toList⟩).language ≠ "en".toList) :=
  ⟨by decide,
   c9_needs_translation_of_trimmed
     ⟨"r1".toList, "l1".toList, "Alfama".toList, "2023-01-10".toList,
      "fr".toList, "bon sejour vraiment".toList⟩ (by decide)⟩

end ClaimC9

section ClaimC6

open DataPreprocessor

/-- The end-to-end scenario input: six valid records, one record
duplicating the identifier `r2`, and one record dated 1999-01-01. -/
def c6rows : List RawRow :=
  [⟨"r1".toList, "l1".toList, "Alfama".toList, "2023-01-10".toList, "en".toList,
    "lovely place to stay".toList⟩,
   ⟨"r2".toList, "l1".toList, "Alfama".toList, "2023-02-11".toList, "en".toList,
    "very clean and comfortable".toList⟩,
   ⟨"r3".toList, "l2".toList, "Baixa".toList, "2023-03-12".toList, "fr".toList,
    "appartement charmant vraiment".toList⟩,
   ⟨"r4".toList, "l2".toList, "Baixa".toList, "2023-04-13".toList, "en".toList,
    "great location overall".toList⟩,
   ⟨"r5".toList, "l3".toList, "Belem".toList, "2023-05-14".toList, "de".toList,
    "sehr gute lage wirklich".toList⟩,
   ⟨"r6".toList, "l3".toList, "Belem".toList, "2023-06-15".toList, "en".toList,
    "would recommend to friends".toList⟩,
   ⟨"r2".toList, "l1".toList, "Alfama".toList, "2023-02-11".toList, "en".toList,
    "very clean and comfortable".toList⟩,
   ⟨"r7".toList, "l4".toList, "Graca".toList, "1999-01-01".toList, "en".toList,
    "an old review from the past".toList⟩]

/-- C6 (what the code actually does on the end-to-end scenario): the
first-variant `validateDate` accepts any year strictly between 1900
and 2030, so the record dated 1999-01-01 is *kept*; the report reads
`originalRows = 8, cleanedRows = 7, removedRows = 1,
duplicatesRemoved = 1, invalidDatesRemoved = 0` — not the
`cleanedRows = 6, removedRows = 2, invalidDatesRemoved = 1` the
specification requires.  The duplicate is the only drop and is
recorded with its 1-based row number. -/
theorem c6_report_keeps_1999_row :
    validateDate "1999-01-01".toList = true ∧
    (preprocessData c6rows).2.originalRows = 8 ∧
    (preprocessData c6rows).2.cleanedRows = 7 ∧
    (preprocessData c6rows).2.removedRows = 1 ∧
    (preprocessData c6rows).2.duplicatesRemoved = 1 ∧
    (preprocessData c6rows).2.invalidDatesRemoved = 0 ∧
    (preprocessData c6rows).2.missingDataRemoved = 0 ∧
    (preprocessData c6rows).2.errors =
      [rowMsg 6 "duplicate review_id".toList] := by
  decide

end ClaimC6

section ClaimC5

open SentimentAnalyzer

/-- Two-month timeline input whose earlier month consists of one
maximally negative review (bucket average 0 after rescaling to
`[0, 1]`), listed in reverse chronological order. -/
def c5rows : List TimelineRow :=
  [⟨"2023-02-10".toList, "great".toList⟩, ⟨"2023-01-15".toList, "terrible".toList⟩]

/-- C5 (what the code actually does): the buckets sort chronologically
and the January bucket averages 0, yet the February bucket still
carries a `change` field — the source divides by the previous average
with no zero guard (`(1 - 0) / 0 * 100`, which is `Infinity` in the
JavaScript runtime and a junk rational here), instead of omitting the
field as the specification requires. -/
theorem c5_unguarded_zero_average_change :
    ((calculateTimelineSentiment c5rows).getD 0 ⟨[], 0, 0, none⟩).month = "01/23".toList ∧
    ((calculateTimelineSentiment c5rows).getD 0 ⟨[], 0, 0, none⟩).averageSentiment = 0 ∧
    ((calculateTimelineSentiment c5rows).getD 1 ⟨[], 0, 0, none⟩).month = "02/23".toList ∧
    ((calculateTimelineSentiment c5rows).getD 1 ⟨[], 0, 0, none⟩).change ≠ none := by
  have hterr : analyzeSentiment "terrible".toList = ⟨-1, 1, .negative⟩ := by
    have ht : tokenize "terrible".toList = ["terrible".toList] := by decide
    rw [analyzeSentiment, if_neg (by decide), ht]
    norm_num +decide [List.range, List.range.loop, List.foldl, scoreStep, List.range']
  have hgreat : analyzeSentiment "great".toList = ⟨1, 1, .positive⟩ := by
    have ht : tokenize "great".toList = ["great".toList] := by decide
    rw [analyzeSentiment, if_neg (by decide), ht]
    norm_num +decide [List.range, List.range.loop, List.foldl, scoreStep, List.range']
  have havg1 : calculateAverageSentiment ["terrible".toList] = ⟨-1, 1, .negative⟩ := by
    rw [calculateAverageSentiment, if_neg (by decide), List.map_cons, List.map_nil, hterr]
    norm_num [meanQ, List.foldl]
  have havg2 : calculateAverageSentiment ["great".toList] = ⟨1, 1, .positive⟩ := by
    rw [calculateAverageSentiment, if_neg (by decide), List.map_cons, List.map_nil, hgreat]
    norm_num [meanQ, List.foldl]
  have hb1 : bucketFor c5rows "2023-01".toList = ⟨"01/23".toList, 0, 1, none⟩ := by
    have htf : textsFor c5rows "2023-01".toList = ["terrible".toList] := by decide
    rw [bucketFor, htf, havg1]
    have hfm : formatMonth "2023-01".toList = "01/23".toList := by decide
    rw [hfm]
    norm_num [toFixedQ]
  have hb2 : bucketFor c5rows "2023-02".toList = ⟨"02/23".toList, 1, 1, none⟩ := by
    have htf : textsFor c5rows "2023-02".toList = ["great".toList] := by decide
    rw [bucketFor, htf, havg2]
    have hfm : formatMonth "2023-02".toList = "02/23".toList := by decide
    rw [hfm]
    norm_num [toFixedQ]
  have hkeys : monthKeys c5rows = ["2023-02".toList, "2023-01".toList] := by decide
  have hcal : calculateTimelineSentiment c5rows =
      [⟨"01/23".toList, 0, 1, none⟩, ⟨"02/23".toList, 1, 1, some 0⟩] := by
    rw [calculateTimelineSentiment, if_neg (by decide), hkeys,
      List.map_cons, List.map_cons, List.map_nil, hb1, hb2]
    rw [sortLe, sortLe, sortLe, insertLe, insertLe]
    rw [if_neg (by decide), insertLe, addChanges]
    rw [show List.enum
        [(⟨"01/23".toList, 0, 1, none⟩ : TimelineSentiment), ⟨"02/23".toList, 1, 1, none⟩] =
        [(0, ⟨"01/23".toList, 0, 1, none⟩), (1, ⟨"02/23".toList, 1, 1, none⟩)] from rfl]
    rw [List.map_cons, List.map_cons, List.map_nil]
    norm_num [toFixedQ]
  rw [hcal]
  exact ⟨rfl, rfl, rfl, by simp⟩

end ClaimC5

theorem natSqrtAux_spec (fuel : Nat) : ∀ lo hi n, lo ≤ hi → hi - lo ≤ fuel →
    lo * lo ≤ n → n < (hi + 1) * (hi + 1) →
    (natSqrtAux fuel lo hi n) * (natSqrtAux fuel lo hi n) ≤ n ∧
      n < (natSqrtAux fuel lo hi n + 1) * (natSqrtAux fuel lo hi n + 1) := by
  induction fuel with
  | zero =>
    intro lo hi n hle hfuel hlo hhi
    have : hi = lo := by omega
    subst this
    simpa [natSqrtAux] using ⟨hlo, hhi⟩
  | succ f ih =>
    intro lo hi n hle hfuel hlo hhi
    rw [natSqrtAux]
    by_cases h1 : hi ≤ lo
    · rw [if_pos h1]
      have : hi = lo := by omega
      subst this
      exact ⟨hlo, hhi⟩
    · rw [if_neg h1]
      simp only []
      by_cases h2 : ((lo + hi + 1) / 2) * ((lo + hi + 1) / 2) ≤ n
      · rw [if_pos h2]
        exact ih _ _ _ (by omega) (by omega) h2 hhi
      · rw [if_neg h2]
        exact ih _ _ _ (by omega) (by omega) hlo (by
          have h4 : n < ((lo + hi + 1) / 2) * ((lo + hi + 1) / 2) := by omega
          have h3 : ((lo + hi + 1) / 2 - 1) + 1 = (lo + hi + 1) / 2 := by omega
          rw [h3]
          exact h4)

theorem natSqrt_mul_self (k : Nat) : natSqrt (k * k) = k := by
  rw [natSqrt]
  have h := natSqrtAux_spec (k * k) 0 (k * k) (k * k) (Nat.zero_le _)
    (by omega) (by omega) (by nlinarith)
  set r := natSqrtAux (k * k) 0 (k * k) (k * k) with hr
  have h1 : r ≤ k := by nlinarith [h.1]
  have h2 : k ≤ r := by nlinarith [h.2]
  omega

theorem ratSqrt_sq (r : ℚ) (h : 0 ≤ r) : ratSqrt (r * r) = r := by
  rw [ratSqrt, Rat.mul_self_num, Rat.mul_self_den]
  have hnum : (r.num * r.num).toNat = r.num.natAbs * r.num.natAbs := by
    rw [← Int.natAbs_mul_self]
    exact Int.toNat_natCast _
  rw [hnum]
  have harr : r.num.natAbs * r.num.natAbs * (r.den * r.den) =
      (r.num.natAbs * r.den) * (r.num.natAbs * r.den) := by ring
  rw [harr, natSqrt_mul_self]
  have hden : (0 : ℚ) < (r.den : ℚ) := by exact_mod_cast r.pos
  have hnm : ((r.num.natAbs : ℚ)) = ((r.num : ℚ)) := by
    rw [Int.cast_natAbs]
    exact_mod_cast congrArg (fun z : ℤ => (z : ℚ)) (abs_of_nonneg (Rat.num_nonneg.mpr h))
  push_cast
  rw [hnm, mul_comm ((r.num : ℚ)) ((r.den : ℚ)),
    mul_div_mul_left _ _ (ne_of_gt hden), Rat.num_div_den]

theorem ratSqrt_zero : ratSqrt 0 = 0 := by
  have := ratSqrt_sq 0 le_rfl
  simpa using this

section ClaimC1

open SentimentAnalyzer

/-- A valid-dated row whose cleaned text is 3 characters and whose
supplied anomaly score 3 exceeds the 2.0 gate. -/
def c1row : AnalyzerRow :=
  ⟨"r1".toList, "bad".toList, "N".toList, "2023-01-10".toList, "en".toList,
   some 0, some 3⟩

/-- C1 (counterexample): a valid row with text under 15 characters
whose effective anomaly score (3) exceeds the 2.0 gate is consumed by
the z-score branch of the `if / else if` chain and classified
`sentiment_neutral` — no `suspicious` record is emitted for it, so the
short-text flag is *not* independent of the gate. -/
theorem c1_short_text_not_flagged_above_gate :
    c1row.raw_text.length < 15 ∧
    effectiveAnomalyScore [c1row] c1row = 3 ∧
    (detectAnomalies [c1row]).map (fun rec => rec.type) = [.sentiment_neutral] := by
  have hvr : validRows [c1row] = [c1row] := by
    rw [validRows, List.filter_cons_of_pos (by decide), List.filter_nil]
  have hgl : (groupOf [c1row] c1row.neighbourhood).length = 1 := by
    rw [groupOf, hvr, List.filter_cons_of_pos (by decide), List.filter_nil]
    rfl
  have hob : overallBaseline [c1row] = ⟨0, 0, 1⟩ := by
    rw [overallBaseline, hvr]
    rw [show List.map sentimentScoreOf [c1row] = [0] from rfl]
    rw [show meanQ [0] = 0 by rw [meanQ]; norm_num [List.foldl]]
    rw [show varianceQ [0] 0 = 0 by rw [varianceQ]; norm_num [List.foldl]]
    rw [show ratSqrt 0 = 0 from ratSqrt_zero]
    rfl
  have hbl : baselineFor [c1row] c1row = ⟨0, 0, 1⟩ := by
    rw [baselineFor, if_neg (by rw [hgl]; omega), hob]
  have heff : effectiveAnomalyScore [c1row] c1row = 3 := rfl
  have hcl : classifyRow [c1row] c1row = some
      ⟨"r1".toList, .sentiment_neutral,
        "Neutral sentiment with low emotional engagement, potentially indicating generic or template content. Anomaly score: ".toList ++
          toFixed2Chars 3,
        "bad".toList, "N".toList, "2023-01-10".toList, 0, 3⟩ := by
    rw [classifyRow, hbl, heff]
    rw [if_pos (by norm_num)]
    rw [show sentimentScoreOf c1row = 0 from rfl]
    norm_num
    exact ⟨by decide, by decide, by decide, by decide⟩
  refine ⟨by decide, heff, ?_⟩
  rw [detectAnomalies, if_neg (by rw [hvr]; simp), hvr, List.filterMap_cons, hcl,
    List.filterMap_nil, List.map_cons, List.map_nil]

/-- C1 (amended): a valid-dated input row whose text is under 15
characters is flagged `suspicious` *provided* its effective anomaly
score does not exceed the 2.0 gate; rows above the gate are consumed
by the z-score branch instead (`else if` in the source). -/
theorem c1_short_text_suspicious_below_gate (data : List AnalyzerRow)
    (row : AnalyzerRow)
    (hmem : row ∈ data) (hval : validateDate row.created_at = true)
    (hshort : row.raw_text.length < 15)
    (hscore : effectiveAnomalyScore data row ≤ 2) :
    ∃ rec ∈ detectAnomalies data,
      rec.review_id = row.review_id ∧ rec.type = .suspicious ∧
      rec.sentiment_score = sentimentScoreOf row := by
  have hmv : row ∈ validRows data := List.mem_filter.mpr ⟨hmem, hval⟩
  have hne : validRows data ≠ [] := List.ne_nil_of_mem hmv
  rw [detectAnomalies, if_neg hne]
  refine ⟨⟨row.review_id, .suspicious,
    "Extremely short review (likely spam or low-effort)".toList,
    row.raw_text, row.neighbourhood, row.created_at,
    sentimentScoreOf row, effectiveAnomalyScore data row⟩, ?_, rfl, rfl, rfl⟩
  apply List.mem_filterMap.mpr
  refine ⟨row, hmv, ?_⟩
  simp only [classifyRow]
  rw [if_neg (not_lt.mpr hscore), if_pos hshort]

/-- A short-text row whose supplied anomaly score 1 stays below the
gate. -/
def c1wrow : AnalyzerRow :=
  ⟨"w1".toList, "ok".toList, "N".toList, "2023-01-10".toList, "en".toList,
   some 0, some 1⟩

/-- Witness for the amended C1 at a concrete short-text row below the
gate. -/
theorem c1_short_text_suspicious_below_gate_witness :
    (c1wrow ∈ [c1wrow] ∧ validateDate c1wrow.created_at = true ∧
      c1wrow.raw_text.length < 15 ∧ effectiveAnomalyScore [c1wrow] c1wrow ≤ 2) ∧
    (∃ rec ∈ detectAnomalies [c1wrow],
      rec.review_id = c1wrow.review_id ∧ rec.type = .suspicious ∧
      rec.sentiment_score = sentimentScoreOf c1wrow) :=
  ⟨⟨List.mem_singleton.mpr rfl, by decide, by decide,
    by rw [show effectiveAnomalyScore [c1wrow] c1wrow = 1 from rfl]; norm_num⟩,
   c1_short_text_suspicious_below_gate [c1wrow] c1wrow (List.mem_singleton.mpr rfl)
     (by decide) (by decide)
     (by rw [show effectiveAnomalyScore [c1wrow] c1wrow = 1 from rfl]; norm_num)⟩

end ClaimC1

section ClaimC2

open SentimentAnalyzer

/-- Row 1 of the boundary scenario (score 0.1). -/
def c2r1 : AnalyzerRow :=
  ⟨"r1".toList, "a perfectly normal stay xx".toList, "N".toList,
   "2023-01-10".toList, "en".toList, some (1/10), none⟩
def c2r2 : AnalyzerRow :=
  ⟨"r2".toList, "a perfectly normal stay xx".toList, "N".toList,
   "2023-01-11".toList, "en".toList, some (1/10), none⟩
def c2r3 : AnalyzerRow :=
  ⟨"r3".toList, "a perfectly normal stay xx".toList, "N".toList,
   "2023-01-12".toList, "en".toList, some (1/10), none⟩
def c2r4 : AnalyzerRow :=
  ⟨"r4".toList, "a perfectly normal stay xx".toList, "N".toList,
   "2023-01-13".toList, "en".toList, some (1/10), none⟩
/-- The 0.9-score row of the boundary scenario. -/
def c2r5 : AnalyzerRow :=
  ⟨"r5".toList, "a delightful wonder stay xx".toList, "N".toList,
   "2023-01-14".toList, "en".toList, some (9/10), none⟩

/-- The five-row single-neighbourhood dataset of the boundary scenario. -/
def c2rows : List AnalyzerRow := [c2r1, c2r2, c2r3, c2r4, c2r5]

theorem c2_valid : validRows c2rows = c2rows := by
  simp only [c2rows, validRows]
  rw [List.filter_cons_of_pos (by decide), List.filter_cons_of_pos (by decide),
    List.filter_cons_of_pos (by decide), List.filter_cons_of_pos (by decide),
    List.filter_cons_of_pos (by decide), List.filter_nil]

theorem c2_group : groupOf c2rows "N".toList = c2rows := by
  rw [groupOf, c2_valid]
  simp only [c2rows]
  rw [List.filter_cons_of_pos (by decide), List.filter_cons_of_pos (by decide),
    List.filter_cons_of_pos (by decide), List.filter_cons_of_pos (by decide),
    List.filter_cons_of_pos (by decide), List.filter_nil]

theorem c2_scores : c2rows.map sentimentScoreOf = [1/10, 1/10, 1/10, 1/10, 9/10] := rfl

theorem c2_groupBaseline : groupBaseline c2rows "N".toList = ⟨13/50, 8/25, 5⟩ := by
  simp only [groupBaseline]
  rw [c2_group, c2_scores]
  rw [show meanQ [(1:ℚ)/10, 1/10, 1/10, 1/10, 9/10] = 13/50 by
    rw [meanQ]; norm_num [List.foldl]]
  rw [show varianceQ [(1:ℚ)/10, 1/10, 1/10, 1/10, 9/10] (13/50) = (8/25) * (8/25) by
    rw [varianceQ]; norm_num [List.foldl]]
  rw [ratSqrt_sq (8/25) (by norm_num)]
  rw [show max ((8:ℚ)/25) 0.2 = 8/25 by norm_num [max_def]]
  rfl

theorem c2_baseline : ∀ r : AnalyzerRow, r.neighbourhood = "N".toList →
    baselineFor c2rows r = ⟨13/50, 8/25, 5⟩ := by
  intro r hnb
  rw [baselineFor, hnb, if_pos (by rw [c2_group]; decide), c2_groupBaseline]

theorem c2_classify_none : ∀ r : AnalyzerRow, r.neighbourhood = "N".toList →
    r.anomaly_score = none → r.language = "en".toList →
    ¬(r.raw_text.length < 15) →
    |sentimentScoreOf r - 13/50| / (8/25 : ℚ) ≤ 2 →
    classifyRow c2rows r = none := by
  intro r hnb han hlang hlen hz
  have heff : effectiveAnomalyScore c2rows r = |sentimentScoreOf r - 13/50| / (8/25 : ℚ) := by
    simp only [effectiveAnomalyScore, han, c2_baseline r hnb]
  simp only [classifyRow, heff]
  rw [if_neg (not_lt.mpr hz), if_neg hlen, if_neg (by rw [hlang]; exact fun h => h.1 rfl)]

theorem c2_absdev1 : |(1:ℚ)/10 - 13/50| / ((8:ℚ)/25) ≤ 2 := by
  rw [show |(1:ℚ)/10 - 13/50| = 4/25 by rw [abs_of_nonpos (by norm_num)]; norm_num]
  norm_num

theorem c2_absdev5 : |(9:ℚ)/10 - 13/50| / ((8:ℚ)/25) ≤ 2 := by
  rw [show |(9:ℚ)/10 - 13/50| = 16/25 by rw [abs_of_nonneg (by norm_num)]; norm_num]
  norm_num

theorem c2_detect : detectAnomalies c2rows = [] := by
  rw [detectAnomalies, if_neg (by rw [c2_valid]; simp [c2rows]), c2_valid]
  set f := classifyRow c2rows with hf
  have h1 : f c2r1 = none := by
    rw [hf]
    exact c2_classify_none c2r1 rfl rfl rfl (by decide)
      (by rw [show sentimentScoreOf c2r1 = 1/10 from rfl]; exact c2_absdev1)
  have h2 : f c2r2 = none := by
    rw [hf]
    exact c2_classify_none c2r2 rfl rfl rfl (by decide)
      (by rw [show sentimentScoreOf c2r2 = 1/10 from rfl]; exact c2_absdev1)
  have h3 : f c2r3 = none := by
    rw [hf]
    exact c2_classify_none c2r3 rfl rfl rfl (by decide)
      (by rw [show sentimentScoreOf c2r3 = 1/10 from rfl]; exact c2_absdev1)
  have h4 : f c2r4 = none := by
    rw [hf]
    exact c2_classify_none c2r4 rfl rfl rfl (by decide)
      (by rw [show sentimentScoreOf c2r4 = 1/10 from rfl]; exact c2_absdev1)
  have h5 : f c2r5 = none := by
    rw [hf]
    exact c2_classify_none c2r5 rfl rfl rfl (by decide)
      (by rw [show sentimentScoreOf c2r5 = 9/10 from rfl]; exact c2_absdev5)
  rw [show c2rows = [c2r1, c2r2, c2r3, c2r4, c2r5] from rfl]
  simp only [List.filterMap_cons, h1, h2, h3, h4, h5, List.filterMap_nil]

/-- C2 (counterexample): for the five-row neighbourhood with scores
0.1, 0.1, 0.1, 0.1, 0.9 the detector emits *no* record at all — in
particular no `sentiment_positive` record for the 0.9 row: its z-score
is exactly 2.0 (0.64 deviation over 0.32 standard deviation) and the
gate is the strict `anomalyScore > 2.0`.  (Checked separately that
IEEE-754 double arithmetic also yields exactly 2.0 here.) -/
theorem c2_no_positive_record_at_boundary :
    ¬ ∃ rec ∈ detectAnomalies c2rows,
      rec.review_id = "r5".toList ∧ rec.type = .sentiment_positive := by
  rw [c2_detect]
  simp

/-- C2 (amended): the five-row neighbourhood does use its own baseline
(group size 5 meets the ≥ 5 cutoff; mean 0.26, standard deviation 0.32
unfloored), the 0.9 row's effective anomaly score is exactly 2.0, and
because the gate is strict the detector emits nothing. -/
theorem c2_own_baseline_boundary_not_flagged :
    (groupOf c2rows "N".toList).length = 5 ∧
    baselineFor c2rows c2r5 = ⟨13/50, 8/25, 5⟩ ∧
    effectiveAnomalyScore c2rows c2r5 = 2 ∧
    detectAnomalies c2rows = [] := by
  refine ⟨by rw [c2_group]; rfl, c2_baseline c2r5 rfl, ?_, c2_detect⟩
  simp only [effectiveAnomalyScore, show c2r5.anomaly_score = none from rfl,
    c2_baseline c2r5 rfl]
  rw [show sentimentScoreOf c2r5 = 9/10 from rfl]
  rw [show |(9:ℚ)/10 - 13/50| = 16/25 by rw [abs_of_nonneg (by norm_num)]; norm_num]
  norm_num

end ClaimC2

section ClaimC4

open SentimentAnalyzer

/-- First row of a two-row, two-neighbourhood dataset with identical
scores. -/
def c4r1 : AnalyzerRow :=
  ⟨"r1".toList, "a perfectly normal stay xx".toList, "A".toList,
   "2023-01-10".toList, "en".toList, some (1/2), none⟩

/-- Second row of the two-row dataset. -/
def c4r2 : AnalyzerRow :=
  ⟨"r2".toList, "a perfectly normal stay xx".toList, "B".toList,
   "2023-01-11".toList, "en".toList, some (1/2), none⟩

/-- Two rows in singleton neighbourhood groups, identical scores:
the dataset-wide fallback baseline has standard deviation 0. -/
def c4rows : List AnalyzerRow := [c4r1, c4r2]

/-- C4 (counterexample): a row in a group below the 5-row cutoff uses
the dataset-wide fallback baseline, and that fallback is *not* floored
at 0.2 — with two identical scores its standard deviation is 0. -/
theorem c4_fallback_stdDev_unfloored :
    (groupOf c4rows c4r1.neighbourhood).length < 5 ∧
    (baselineFor c4rows c4r1).stdDev = 0 ∧
    ¬ ((0.2 : ℚ) ≤ (baselineFor c4rows c4r1).stdDev) := by
  have hvr : validRows c4rows = c4rows := by
    simp only [c4rows, validRows]
    rw [List.filter_cons_of_pos (by decide), List.filter_cons_of_pos (by decide),
      List.filter_nil]
  have hg : groupOf c4rows c4r1.neighbourhood = [c4r1] := by
    rw [groupOf, hvr]
    simp only [c4rows]
    rw [List.filter_cons_of_pos (by decide), List.filter_cons_of_neg (by decide),
      List.filter_nil]
  have hob : (overallBaseline c4rows).stdDev = 0 := by
    simp only [overallBaseline, hvr]
    rw [show c4rows.map sentimentScoreOf = [1/2, 1/2] from rfl]
    rw [show meanQ [(1:ℚ)/2, 1/2] = 1/2 by rw [meanQ]; norm_num [List.foldl]]
    rw [show varianceQ [(1:ℚ)/2, 1/2] (1/2) = 0 by rw [varianceQ]; norm_num [List.foldl]]
    exact ratSqrt_zero
  have hbl : (baselineFor c4rows c4r1).stdDev = 0 := by
    rw [baselineFor, if_neg (by rw [hg]; decide)]
    exact hob
  exact ⟨by rw [hg]; decide, hbl, by rw [hbl]; norm_num⟩

/-- C4 (amended): a group meeting the ≥ 5 cutoff uses its own
baseline, whose standard deviation is floored at 0.2; a group below
the cutoff uses the dataset-wide baseline, which is *not* floored. -/
theorem c4_stdDev_floor_only_for_groups (data : List AnalyzerRow)
    (row : AnalyzerRow) :
    (5 ≤ (groupOf data row.neighbourhood).length →
      (0.2 : ℚ) ≤ (baselineFor data row).stdDev) ∧
    ((groupOf data row.neighbourhood).length < 5 →
      baselineFor data row = overallBaseline data) := by
  constructor
  · intro h
    rw [baselineFor, if_pos h]
    simp only [groupBaseline]
    exact le_max_right _ _
  · intro h
    rw [baselineFor, if_neg (not_le.mpr h)]

/-- A five-row single-neighbourhood dataset for the floor witness. -/
def c4wrows : List AnalyzerRow :=
  [⟨"r1".toList, "a perfectly normal stay xx".toList, "N".toList,
    "2023-01-10".toList, "en".toList, none, none⟩,
   ⟨"r2".toList, "a perfectly normal stay xx".toList, "N".toList,
    "2023-01-11".toList, "en".toList, none, none⟩,
   ⟨"r3".toList, "a perfectly normal stay xx".toList, "N".toList,
    "2023-01-12".toList, "en".toList, none, none⟩,
   ⟨"r4".toList, "a perfectly normal stay xx".toList, "N".toList,
    "2023-01-13".toList, "en".toList, none, none⟩,
   ⟨"r5".toList, "a perfectly normal stay xx".toList, "N".toList,
    "2023-01-14".toList, "en".toList, none, none⟩]

/-- Witness for the amended C4 at a concrete five-row group. -/
theorem c4_stdDev_floor_only_for_groups_witness :
    5 ≤ (groupOf c4wrows (c4wrows.getD 0 c4r1).neighbourhood).length ∧
    (0.2 : ℚ) ≤ (baselineFor c4wrows (c4wrows.getD 0 c4r1)).stdDev :=
  ⟨by decide, (c4_stdDev_floor_only_for_groups c4wrows _).1 (by decide)⟩

end ClaimC4

section ClaimC10

open SentimentAnalyzer

/-- Every record `classifyRow` emits carries the review id of the row
it was emitted for (each branch of the `if / else if` chain copies
`row.review_id`). -/
theorem classifyRow_review_id (data : List AnalyzerRow) (r : AnalyzerRow)
    (rec : AnomalyMetadata) (h : classifyRow data r = some rec) :
    rec.review_id = r.review_id := by
  simp only [classifyRow] at h
  split at h
  · obtain rfl := Option.some_inj.mp h
    rfl
  · split at h
    · obtain rfl := Option.some_inj.mp h
      rfl
    · split at h
      · obtain rfl := Option.some_inj.mp h
        rfl
      · exact absurd h (by simp)

/-- The review ids of the records `detectAnomalies` builds from a row
list form a sublist of that row list's review ids: one row contributes
at most one record. -/
theorem filterMap_classify_ids_sublist (data l : List AnalyzerRow) :
    ((l.filterMap (classifyRow data)).map (fun rec => rec.review_id)).Sublist
      (l.map (fun r => r.review_id)) := by
  induction l with
  | nil => simp
  | cons r rest ih =>
    rw [List.filterMap_cons, List.map_cons]
    cases hc : classifyRow data r with
    | none => exact ih.cons _
    | some rec =>
      rw [List.map_cons, classifyRow_review_id data r rec hc]
      exact ih.cons₂ _

/-- A duplicate-free list counts every element at most once. -/
theorem count_le_one_of_nodup {α : Type} [BEq α] [LawfulBEq α] (l : List α)
    (h : l.Nodup) (a : α) : l.count a ≤ 1 := by
  induction l with
  | nil => simp
  | cons x xs ih =>
    rcases List.nodup_cons.mp h with ⟨hx, hxs⟩
    by_cases hax : a = x
    · subst hax
      have h0 : xs.count a = 0 := List.count_eq_zero.mpr hx
      simp [List.count_cons, h0]
    · have hc := ih hxs
      rw [List.count_cons, if_neg (by simpa using Ne.symm hax)]
      simpa using hc

/-- C10: when the input rows have pairwise distinct review ids, no
review id occurs more than once among the emitted anomaly records —
the z-score gate, the short-text check and the language check are one
`if / else if` chain, so each row yields at most one record. -/
theorem c10_at_most_one_record_per_row (data : List AnalyzerRow)
    (h : (data.map (fun r => r.review_id)).Nodup) :
    ∀ rid, ((detectAnomalies data).map (fun rec => rec.review_id)).count rid ≤ 1 := by
  intro rid
  rw [detectAnomalies]
  split
  · simp
  · have h1 := filterMap_classify_ids_sublist data (validRows data)
    have h2 : (validRows data).Sublist data := List.filter_sublist data
    have h4 := h1.trans (h2.map fun r => r.review_id)
    exact le_trans (h4.count_le rid) (count_le_one_of_nodup _ h rid)

/-- Two-row dataset with distinct review ids for the C10 witness. -/
def c10rows : List AnalyzerRow :=
  [⟨"r1".toList, "ok".toList, "N".toList, "2023-01-10".toList, "en".toList,
    none, some 3⟩,
   ⟨"r2".toList, "a perfectly normal stay xx".toList, "N".toList,
    "2023-01-11".toList, "en".toList, none, none⟩]

/-- Witness for C10 at a concrete two-row dataset. -/
theorem c10_at_most_one_record_per_row_witness :
    (c10rows.map (fun r => r.review_id)).Nodup ∧
    ((detectAnomalies c10rows).map (fun rec => rec.review_id)).count "r1".toList ≤ 1 :=
  ⟨by decide, c10_at_most_one_record_per_row c10rows (by decide) "r1".toList⟩

end ClaimC10

section ClaimC7

theorem jsTrim_eq_rdrop (s : List Char) :
    jsTrim s = List.rdropWhile isSpaceChar (List.dropWhile isSpaceChar s) := rfl

theorem jsTrim_idem (s : List Char) : jsTrim (jsTrim s) = jsTrim s := by
  rw [jsTrim_eq_rdrop, jsTrim_eq_rdrop]
  have h1 : List.dropWhile isSpaceChar
      (List.rdropWhile isSpaceChar (List.dropWhile isSpaceChar s)) =
      List.rdropWhile isSpaceChar (List.dropWhile isSpaceChar s) := by
    rw [List.dropWhile_eq_self_iff]
    intro hl
    have hpre : (List.rdropWhile isSpaceChar (List.dropWhile isSpaceChar s)).IsPrefix
        (List.dropWhile isSpaceChar s) := List.rdropWhile_prefix _ _
    have hlen : 0 < (List.dropWhile isSpaceChar s).length :=
      lt_of_lt_of_le hl hpre.length_le
    have hg : (List.rdropWhile isSpaceChar (List.dropWhile isSpaceChar s)).get ⟨0, hl⟩ =
        (List.dropWhile isSpaceChar s).get ⟨0, hlen⟩ := by
      simp only [List.get_eq_getElem]
      exact hpre.getElem hl
    rw [hg]
    exact List.dropWhile_get_zero_not _ _ hlen
  rw [h1, List.rdropWhile_idempotent]

theorem digitVal_digitOfNat (k : Nat) : digitVal (digitOfNat k) = some (k % 10) := by
  have h : k % 10 < 10 := Nat.mod_lt _ (by norm_num)
  rw [show digitOfNat k = digitOfNat (k % 10) by simp [digitOfNat, Nat.mod_mod_of_dvd]]
  set m := k % 10 with hm
  clear_value m
  interval_cases m <;> rfl

theorem digitVal_le (c : Char) (k : Nat) (h : digitVal c = some k) : k ≤ 9 := by
  simp only [digitVal] at h
  split at h
  · obtain rfl := Option.some_inj.mp h
    omega
  · exact absurd h (by simp)

theorem read2_pad2 (n : Nat) (h : n < 100) (rest : List Char) :
    read2 (pad2 n ++ rest) = some (n, rest) := by
  simp only [pad2, List.cons_append, List.nil_append, read2,
    digitVal_digitOfNat, Option.bind_eq_bind, Option.some_bind]
  have h1 : n / 10 % 10 = n / 10 := Nat.mod_eq_of_lt (by omega)
  rw [h1]
  have h2 : 10 * (n / 10) + n % 10 = n := by omega
  rw [h2]

theorem read4_pad4 (n : Nat) (h : n < 10000) (rest : List Char) :
    read4 (pad4 n ++ rest) = some (n, rest) := by
  simp only [pad4, List.cons_append, List.nil_append, read4,
    digitVal_digitOfNat, Option.bind_eq_bind, Option.some_bind]
  have h1 : n / 1000 % 10 = n / 1000 := Nat.mod_eq_of_lt (by omega)
  rw [h1]
  have h2 : 1000 * (n / 1000) + 100 * (n / 100 % 10) + 10 * (n / 10 % 10) + n % 10 = n := by
    omega
  rw [h2]

theorem expectChar_cons (c : Char) (rest : List Char) :
    expectChar c (c :: rest) = some rest := by
  simp [expectChar]

theorem parseJSDate_format (d : JSDate) (hy : d.year < 10000)
    (hv : validJSDate d = true) : parseJSDate (formatJSDate d) = some d := by
  obtain ⟨y, mo, day, hh, mi, sec⟩ := d
  have hmo : mo < 100 := by
    simp only [validJSDate] at hv
    simp at hv
    omega
  have hday : day < 100 := by
    have := hv
    simp only [validJSDate] at this
    simp at this
    have h31 : daysInMonth y mo ≤ 31 := by
      rw [daysInMonth]
      split
      · split <;> omega
      · split <;> omega
    omega
  have hhh : hh < 100 := by
    simp only [validJSDate] at hv; simp at hv; omega
  have hmi : mi < 100 := by
    simp only [validJSDate] at hv; simp at hv; omega
  have hsec : sec < 100 := by
    simp only [validJSDate] at hv; simp at hv; omega
  have hsec2 : read2 (pad2 sec) = some (sec, []) := by
    have := read2_pad2 sec hsec []
    rwa [List.append_nil] at this
  simp only [formatJSDate]
  rw [parseJSDate]
  simp only [List.append_assoc, List.cons_append]
  rw [read4_pad4 y hy]
  simp only [Option.bind_eq_bind, Option.some_bind]
  rw [expectChar_cons]
  simp only [Option.some_bind]
  rw [read2_pad2 mo hmo]
  simp only [Option.some_bind]
  rw [expectChar_cons]
  simp only [Option.some_bind]
  rw [read2_pad2 day hday]
  simp only [Option.some_bind]
  rw [read2_pad2 hh hhh]
  simp only [Option.some_bind]
  rw [expectChar_cons]
  simp only [Option.some_bind]
  rw [read2_pad2 mi hmi]
  simp only [Option.some_bind]
  rw [expectChar_cons]
  simp only [Option.some_bind]
  rw [hsec2]
  simp only [Option.some_bind, if_pos rfl]
  rw [if_pos hv]
  simp

theorem parseJSDate_sound (s : List Char) (d : JSDate)
    (h : parseJSDate s = some d) : validJSDate d = true ∧ d.year < 10000 := by
  have read4_bound : ∀ (t : List Char) (y : Nat) (r : List Char),
      read4 t = some (y, r) → y < 10000 := by
    intro t y r ht
    match t with
    | [] => simp [read4] at ht
    | [a] => simp [read4] at ht
    | [a, b] => simp [read4] at ht
    | [a, b, c] => simp [read4] at ht
    | a :: b :: c :: e :: rest =>
      simp only [read4, Option.bind_eq_bind, Option.bind_eq_some] at ht
      obtain ⟨x, hx, ht⟩ := ht
      obtain ⟨x2, hx2, ht⟩ := ht
      obtain ⟨x3, hx3, ht⟩ := ht
      obtain ⟨x4, hx4, ht⟩ := ht
      have hfin : 1000 * x + 100 * x2 + 10 * x3 + x4 = y :=
        congrArg Prod.fst (Option.some_inj.mp ht)
      have b1 := digitVal_le a x hx
      have b2 := digitVal_le b x2 hx2
      have b3 := digitVal_le c x3 hx3
      have b4 := digitVal_le e x4 hx4
      omega
  simp only [parseJSDate, Option.bind_eq_bind, Option.bind_eq_some] at h
  obtain ⟨⟨y, s1⟩, hy, h⟩ := h
  obtain ⟨s2, hs2, h⟩ := h
  obtain ⟨⟨mo, s3⟩, hmo, h⟩ := h
  obtain ⟨s4, hs4, h⟩ := h
  obtain ⟨⟨day, s5⟩, hday, h⟩ := h
  have hyb := read4_bound _ _ _ hy
  split at h
  · simp only [Option.some_bind] at h
    split at h
    · obtain rfl := Option.some_inj.mp h
      exact ⟨by assumption, hyb⟩
    · exact absurd h (by simp)
  · simp only [Option.bind_eq_some] at h
    obtain ⟨⟨a1, r1⟩, -, h⟩ := h
    obtain ⟨r2, -, h⟩ := h
    obtain ⟨⟨a2, r3⟩, -, h⟩ := h
    obtain ⟨r4, -, h⟩ := h
    obtain ⟨⟨a3, r5⟩, -, h⟩ := h
    split at h
    · simp only [Option.some_bind] at h
      split at h
      · obtain rfl := Option.some_inj.mp h
        exact ⟨by assumption, hyb⟩
      · exact absurd h (by simp)
    · exact absurd h (by simp)
  · exact absurd h (by simp)

open DataPreprocessor

theorem validateDate_standardizeDate (s : List Char)
    (h : validateDate s = true) :
    validateDate (standardizeDate s) = true := by
  rw [validateDate] at h
  split at h
  · exact absurd h (by simp)
  · cases hp : parseJSDate s with
    | none => rw [hp] at h; exact absurd h (by simp)
    | some d =>
      rw [hp] at h
      obtain ⟨hv, hy⟩ := parseJSDate_sound s d hp
      rw [standardizeDate, hp, validateDate]
      rw [if_neg (by simp [formatJSDate, pad4])]
      rw [parseJSDate_format d hy hv]
      exact h

theorem ppGo_cleaned_mem (rows : List RawRow) : ∀ idx st c,
    c ∈ (ppGo idx rows st).cleaned →
    c ∈ st.cleaned ∨ ∃ r : RawRow,
      validateDate r.created_at = true ∧ c = cleanRow r := by
  induction rows with
  | nil =>
    intro idx st c h
    exact Or.inl h
  | cons r rest ih =>
    intro idx st c h
    rw [ppGo] at h
    rcases ih _ _ _ h with h1 | h2
    · rw [ppStep] at h1
      split at h1
      · exact Or.inl h1
      · split at h1
        · exact Or.inl h1
        · split at h1
          · exact Or.inl h1
          · rcases List.mem_append.mp h1 with h3 | h3
            · exact Or.inl h3
            · refine Or.inr ⟨r, ?_, List.mem_singleton.mp h3⟩
              next hcond =>
                simpa using hcond
    · exact Or.inr h2

theorem ppGo_keeps_clean (cs : List CleanedRow) : ∀ idx st,
    (∀ c ∈ cs, c.review_id ≠ [] ∧ c.raw_text ≠ [] ∧
      jsTrim c.review_id = c.review_id ∧ validateDate c.created_at = true) →
    (cs.map fun c => c.review_id).Nodup →
    (∀ c ∈ cs, c.review_id ∉ st.seen) →
    (ppGo idx (cs.map toRaw) st).removedRows = st.removedRows ∧
    (ppGo idx (cs.map toRaw) st).cleaned.length = st.cleaned.length + cs.length := by
  induction cs with
  | nil =>
    intro idx st _ _ _
    simp [ppGo]
  | cons c rest ih =>
    intro idx st hall hnd hseen
    obtain ⟨hid, htext, htrim, hdate⟩ := hall c (List.mem_cons_self _ _)
    rw [List.map_cons, ppGo]
    have hstep : ppStep idx (toRaw c) st =
        { st with cleaned := st.cleaned ++ [cleanRow (toRaw c)],
                  seen := st.seen ++ [(cleanRow (toRaw c)).review_id],
                  langDist := bumpLang (cleanRow (toRaw c)).language st.langDist,
                  nonEnglishCount := st.nonEnglishCount +
                    (if (cleanRow (toRaw c)).needs_translation then 1 else 0) } := by
      rw [ppStep]
      rw [if_neg (by simp [toRaw, hid, htext])]
      rw [if_neg (by simpa [toRaw] using hseen c (List.mem_cons_self _ _))]
      rw [if_neg (by simp [toRaw, hdate])]
    have hcid : (cleanRow (toRaw c)).review_id = c.review_id := by
      simp [cleanRow, toRaw, htrim]
    have hrest := ih (idx + 1)
      (ppStep idx (toRaw c) st)
      (fun c' hc' => hall c' (List.mem_cons_of_mem _ hc'))
      (List.nodup_cons.mp (by simpa using hnd)).2
      (by
        intro c' hc'
        rw [hstep]
        simp only [hcid]
        intro hmem
        rcases List.mem_append.mp hmem with hm | hm
        · exact hseen c' (List.mem_cons_of_mem _ hc') hm
        · have : c'.review_id = c.review_id := List.mem_singleton.mp hm
          have hne : c.review_id ∉ rest.map fun x => x.review_id :=
            (List.nodup_cons.mp (by simpa using hnd)).1
          exact hne (this ▸ List.mem_map_of_mem _ hc'))
    refine ⟨?_, ?_⟩
    · rw [hrest.1, hstep]
    · rw [hrest.2, hstep]
      show (st.cleaned ++ [cleanRow (toRaw c)]).length + rest.length =
        st.cleaned.length + (c :: rest).length
      simp only [List.length_append, List.length_cons, List.length_singleton,
        List.length_nil]
      omega

/-- An otherwise-valid record whose review text is whitespace only. -/
def c7row : RawRow :=
  ⟨"r1".toList, "l1".toList, "Alfama".toList, "2023-01-10".toList, "en".toList,
   "   ".toList⟩

/-- C7 (counterexample): a record whose `raw_text` is whitespace-only
is truthy, so the first run keeps it, but `cleanText` trims it to the
empty string; the second run then drops that cleaned row as missing
data — `preprocessData` is not idempotent on its own output. -/
theorem c7_second_run_drops_whitespace_text_row :
    (preprocessData [c7row]).1.length = 1 ∧
    (preprocessData ((preprocessData [c7row]).1.map toRaw)).2.cleanedRows = 0 ∧
    (preprocessData ((preprocessData [c7row]).1.map toRaw)).2.removedRows = 1 := by
  decide

/-- C7 (amended): re-running `preprocessData` on its own cleaned
output drops zero rows provided every cleaned row has a non-empty
review id and non-empty cleaned text and the cleaned review ids are
pairwise distinct (cleaned ids are already trimmed and cleaned dates
already standardized, so the duplicate and date checks re-pass). -/
theorem c7_idempotent_on_nonempty_unique_rows (rows : List RawRow)
    (h1 : ∀ c ∈ (preprocessData rows).1, c.review_id ≠ [] ∧ c.raw_text ≠ [])
    (h2 : ((preprocessData rows).1.map fun c => c.review_id).Nodup) :
    (preprocessData ((preprocessData rows).1.map toRaw)).2.removedRows = 0 ∧
    (preprocessData ((preprocessData rows).1.map toRaw)).2.cleanedRows =
      (preprocessData rows).1.length := by
  have hprod : ∀ c ∈ (preprocessData rows).1,
      jsTrim c.review_id = c.review_id ∧ validateDate c.created_at = true := by
    intro c hc
    rcases ppGo_cleaned_mem rows 0 initState c hc with habs | ⟨r, hr, rfl⟩
    · exact absurd habs (by simp [initState])
    · exact ⟨jsTrim_idem r.review_id, validateDate_standardizeDate _ hr⟩
  have hgo := ppGo_keeps_clean (preprocessData rows).1 0 initState
    (fun c hc => ⟨(h1 c hc).1, (h1 c hc).2, (hprod c hc).1, (hprod c hc).2⟩)
    h2
    (by intro c hc; simp [initState])
  exact ⟨hgo.1, by have := hgo.2; simpa [initState] using this⟩

/-- Two ordinary valid records for the idempotence witness. -/
def c7wrows : List RawRow :=
  [⟨"r1".toList, "l1".toList, "Alfama".toList, "2023-01-10".toList, "en".toList,
    "lovely place to stay".toList⟩,
   ⟨"r2".toList, "l1".toList, "Alfama".toList, "2023-02-11".toList, "en".toList,
    "very clean and comfortable".toList⟩]

/-- Witness for the amended C7 at a concrete two-row input. -/
theorem c7_idempotent_on_nonempty_unique_rows_witness :
    ((∀ c ∈ (preprocessData c7wrows).1, c.review_id ≠ [] ∧ c.raw_text ≠ []) ∧
      ((preprocessData c7wrows).1.map fun c => c.review_id).Nodup) ∧
    ((preprocessData ((preprocessData c7wrows).1.map toRaw)).2.removedRows = 0 ∧
     (preprocessData ((preprocessData c7wrows).1.map toRaw)).2.cleanedRows =
       (preprocessData c7wrows).1.length) :=
  ⟨⟨by decide, by decide⟩, c7_idempotent_on_nonempty_unique_rows c7wrows (by decide) (by decide)⟩

end ClaimC7

section ClaimC8

namespace CSVParser

theorem splitAux_other (c : Char) (h1 : c ≠ '"') (h2 : c ≠ '\n') (h3 : c ≠ '\r')
    (rest : List Char) (q : Bool) (cur : List Char) :
    splitLinesAux (c :: rest) q cur = splitLinesAux rest q (cur ++ [c]) := by
  rw [splitLinesAux]
  rw [if_neg h1, if_neg (by simp [h2, h3])]

theorem splitAux_quote (rest : List Char) (h : rest.head? ≠ some '"')
    (q : Bool) (cur : List Char) :
    splitLinesAux ('"' :: rest) q cur = splitLinesAux rest (!q) (cur ++ ['"']) := by
  rw [splitLinesAux]
  rw [if_pos rfl, if_neg h]

theorem splitAux_escape (rest : List Char) (q : Bool) (cur : List Char) :
    splitLinesAux ('"' :: '"' :: rest) q cur = splitLinesAux rest q (cur ++ ['"', '"']) := by
  rw [splitLinesAux]
  rw [if_pos rfl, if_pos (by simp)]
  rfl

theorem splitAux_nl_inq (c : Char) (hc : c = '\n' ∨ c = '\r') (rest : List Char)
    (cur : List Char) :
    splitLinesAux (c :: rest) true cur = splitLinesAux rest true (cur ++ [c]) := by
  rw [splitLinesAux]
  rw [if_neg (by rcases hc with rfl | rfl <;> decide), if_pos hc, if_pos rfl]

theorem splitAux_char_inq (c : Char) (h : c ≠ '"') (rest : List Char) (cur : List Char) :
    splitLinesAux (c :: rest) true cur = splitLinesAux rest true (cur ++ [c]) := by
  by_cases hc : c = '\n' ∨ c = '\r'
  · exact splitAux_nl_inq c hc rest cur
  · push_neg at hc
    exact splitAux_other c h hc.1 hc.2 rest true cur

theorem splitAux_nl (rest : List Char) (cur : List Char) :
    splitLinesAux ('\n' :: rest) false cur =
      pushLine cur (splitLinesAux rest false []) := by
  rw [splitLinesAux]
  rw [if_neg (by decide), if_pos (by decide), if_neg (by simp)]
  rw [if_neg (by simp)]

theorem splitAux_copy_inq (f : List Char) (h : '"' ∉ f) :
    ∀ rest cur, splitLinesAux (f ++ rest) true cur = splitLinesAux rest true (cur ++ f) := by
  induction f with
  | nil => intro rest cur; rw [List.nil_append, List.append_nil]
  | cons c f ih =>
    intro rest cur
    rw [List.cons_append, splitAux_char_inq c (fun hc => h (hc ▸ List.mem_cons_self c f)),
      ih (fun hc => h (List.mem_cons_of_mem c hc)), List.append_assoc]
    rfl

end CSVParser

namespace CSVUpload

theorem serializeRow_one (f : List Char) :
    serializeRow [f] = serializeField f := by
  simp [serializeRow, List.intercalate]

theorem serializeRow_cons (f : List Char) (g : List Char) (t : List (List Char)) :
    serializeRow (f :: g :: t) = serializeField f ++ ',' :: serializeRow (g :: t) := by
  simp only [serializeRow, List.map_cons, List.intercalate]
  rw [List.intersperse_cons_cons]
  simp

end CSVUpload

namespace CSVParser

open CSVUpload

theorem splitAux_serField (f : List Char) (hq : '"' ∉ f)
    (rest : List Char) (hrest : rest.head? ≠ some '"') (cur : List Char) :
    splitLinesAux (serializeField f ++ rest) false cur =
      splitLinesAux rest false (cur ++ serializeField f) := by
  cases f with
  | nil =>
    show splitLinesAux ('"' :: '"' :: rest) false cur = _
    rw [splitAux_escape]
    rfl
  | cons c f =>
    have hc : c ≠ '"' := fun h => hq (h ▸ List.mem_cons_self c f)
    show splitLinesAux ('"' :: ((c :: f) ++ ['"'] ++ rest)) false cur = _
    rw [show ((c :: f) ++ ['"'] ++ rest) = ((c :: f) ++ ('"' :: rest)) by simp]
    rw [splitAux_quote _ (by simp [hc]) _ _, Bool.not_false]
    rw [splitAux_copy_inq (c :: f) hq ('"' :: rest) (cur ++ ['"'])]
    rw [splitAux_quote rest hrest, Bool.not_true]
    simp only [serializeField, List.append_assoc, List.cons_append, List.nil_append,
      Bool.not_true, Bool.not_false]

theorem splitAux_comma (rest : List Char) (q : Bool) (cur : List Char) :
    splitLinesAux (',' :: rest) q cur = splitLinesAux rest q (cur ++ [',']) :=
  splitAux_other ',' (by decide) (by decide) (by decide) rest q cur

theorem splitAux_serRow (fs : List (List Char)) (hne : fs ≠ [])
    (hq : ∀ f ∈ fs, '"' ∉ f) :
    ∀ rest, rest.head? ≠ some '"' → ∀ cur,
      splitLinesAux (serializeRow fs ++ rest) false cur =
        splitLinesAux rest false (cur ++ serializeRow fs) := by
  induction fs with
  | nil => exact absurd rfl hne
  | cons f t ih =>
    intro rest hrest cur
    cases t with
    | nil =>
      rw [serializeRow_one]
      exact splitAux_serField f (hq f (List.mem_cons_self _ _)) rest hrest cur
    | cons g t2 =>
      rw [serializeRow_cons]
      rw [List.append_assoc, List.cons_append]
      rw [splitAux_serField f (hq f (List.mem_cons_self _ _)) _ (by simp) cur]
      rw [splitAux_comma]
      rw [ih (by simp) (fun x hx => hq x (List.mem_cons_of_mem _ hx)) rest hrest _]
      simp [serializeRow_cons, List.append_assoc]

end CSVParser

theorem jsTrim_ne_nil_of_head (c : Char) (hc : isSpaceChar c = false) (t : List Char) :
    jsTrim (c :: t) ≠ [] := by
  rw [jsTrim_eq_rdrop, List.dropWhile_cons_of_neg (by simp [hc])]
  rw [Ne, List.rdropWhile_eq_nil_iff]
  intro h
  have := h c (List.mem_cons_self _ _)
  simp [hc] at this

theorem jsTrim_eq_self_of_ends (c d : Char) (hc : isSpaceChar c = false)
    (hd : isSpaceChar d = false) (mid : List Char) :
    jsTrim (c :: (mid ++ [d])) = c :: (mid ++ [d]) := by
  rw [jsTrim_eq_rdrop, List.dropWhile_cons_of_neg (by simp [hc])]
  rw [List.rdropWhile_eq_self_iff]
  intro hl
  have hsome : (c :: (mid ++ [d])).getLast? = some d := by
    rw [show c :: (mid ++ [d]) = (c :: mid) ++ [d] by simp]
    exact List.getLast?_concat _
  have hg : (c :: (mid ++ [d])).getLast hl = d := by
    have h2 := List.getLast?_eq_getLast (c :: (mid ++ [d])) hl
    rw [h2] at hsome
    exact Option.some_inj.mp hsome
  rw [hg]
  simp [hd]

theorem intercalate_cons_cons {α : Type} (sep a b : List α) (t : List (List α)) :
    List.intercalate sep (a :: b :: t) = a ++ sep ++ List.intercalate sep (b :: t) := by
  simp only [List.intercalate]
  rw [List.intersperse_cons_cons]
  simp

open CSVUpload

theorem serializeRow_shape (fs : List (List Char)) (hne : fs ≠ []) :
    ∃ mid, serializeRow fs = '"' :: (mid ++ ['"']) := by
  induction fs with
  | nil => exact absurd rfl hne
  | cons f t ih =>
    cases t with
    | nil =>
      refine ⟨f, ?_⟩
      rw [serializeRow_one]
      simp [serializeField]
    | cons g t2 =>
      obtain ⟨mid, hmid⟩ := ih (by simp)
      refine ⟨f ++ ['"'] ++ ',' :: '"' :: mid, ?_⟩
      rw [serializeRow_cons, hmid]
      simp [serializeField]

theorem jsTrim_serializeRow (fs : List (List Char)) (hne : fs ≠ []) :
    jsTrim (serializeRow fs) = serializeRow fs := by
  obtain ⟨mid, hmid⟩ := serializeRow_shape fs hne
  rw [hmid]
  exact jsTrim_eq_self_of_ends '"' '"' (by decide) (by decide) mid

theorem jsTrim_serializeRow_ne_nil (fs : List (List Char)) (hne : fs ≠ []) :
    jsTrim (serializeRow fs) ≠ [] := by
  obtain ⟨mid, hmid⟩ := serializeRow_shape fs hne
  rw [hmid]
  exact jsTrim_ne_nil_of_head '"' (by decide) _

namespace CSVParser

theorem splitAux_plain (xs : List Char)
    (h : ∀ c ∈ xs, c ≠ '"' ∧ c ≠ '\n' ∧ c ≠ '\r') :
    ∀ rest q cur, splitLinesAux (xs ++ rest) q cur = splitLinesAux rest q (cur ++ xs) := by
  induction xs with
  | nil => intro rest q cur; rw [List.nil_append, List.append_nil]
  | cons c t ih =>
    intro rest q cur
    obtain ⟨h1, h2, h3⟩ := h c (List.mem_cons_self _ _)
    rw [List.cons_append, splitAux_other c h1 h2 h3,
      ih (fun x hx => h x (List.mem_cons_of_mem _ hx)), List.append_assoc]
    rfl

theorem split_join (rows : List (List (List Char)))
    (hne : ∀ r ∈ rows, r ≠ []) (hq : ∀ r ∈ rows, ∀ f ∈ r, '"' ∉ f) :
    splitLinesAux (List.intercalate ['\n'] (rows.map serializeRow)) false [] =
      rows.map serializeRow := by
  induction rows with
  | nil =>
    rw [show List.intercalate ['\n']
        (([] : List (List (List Char))).map serializeRow) = [] by
      simp [List.intercalate]]
    rw [splitLinesAux]
    simp [pushLine, jsTrim]
  | cons r t ih =>
    cases t with
    | nil =>
      simp only [List.map_cons, List.map_nil]
      rw [show List.intercalate ['\n'] [serializeRow r] = serializeRow r by
        simp [List.intercalate]]
      rw [show serializeRow r = serializeRow r ++ [] by simp]
      rw [splitAux_serRow r (hne r (List.mem_cons_self _ _))
        (hq r (List.mem_cons_self _ _)) [] (by simp) []]
      rw [splitLinesAux]
      rw [pushLine, if_neg (by
        simpa using jsTrim_serializeRow_ne_nil r (hne r (List.mem_cons_self _ _)))]
      simp
    | cons r2 t2 =>
      rw [List.map_cons, List.map_cons, intercalate_cons_cons, List.append_assoc]
      rw [splitAux_serRow r (hne r (List.mem_cons_self _ _))
        (hq r (List.mem_cons_self _ _)) _ (by simp) []]
      rw [show ['\n'] ++ List.intercalate ['\n']
          (serializeRow r2 :: List.map serializeRow t2) =
        '\n' :: List.intercalate ['\n']
          (serializeRow r2 :: List.map serializeRow t2) by simp]
      rw [splitAux_nl]
      rw [← List.map_cons serializeRow r2 t2]
      rw [ih (fun x hx => hne x (List.mem_cons_of_mem _ hx))
        (fun x hx => hq x (List.mem_cons_of_mem _ hx))]
      rw [pushLine, if_neg (by
        simpa using jsTrim_serializeRow_ne_nil r (hne r (List.mem_cons_self _ _)))]
      simp

end CSVParser

namespace CSVParser

theorem parseAux_append (c : Char) (rest : List Char) (q : Bool) (cur : List Char)
    (h1 : c ≠ '"') (h2 : ¬(c = ',' ∧ ¬q)) :
    parseLineAux (c :: rest) q cur = parseLineAux rest q (cur ++ [c]) := by
  rw [parseLineAux]
  rw [if_neg h1, if_neg h2]

theorem parseAux_comma (rest : List Char) (cur : List Char) :
    parseLineAux (',' :: rest) false cur =
      cleanValue cur :: parseLineAux rest false [] := by
  rw [parseLineAux]
  rw [if_neg (by decide), if_pos (by simp)]

theorem parseAux_quote (rest : List Char) (h : rest.head? ≠ some '"')
    (q : Bool) (cur : List Char) :
    parseLineAux ('"' :: rest) q cur = parseLineAux rest (!q) cur := by
  rw [parseLineAux]
  rw [if_pos rfl, if_neg h]

theorem parseAux_escape (rest : List Char) (q : Bool) (cur : List Char) :
    parseLineAux ('"' :: '"' :: rest) q cur = parseLineAux rest q (cur ++ ['"']) := by
  rw [parseLineAux]
  rw [if_pos rfl, if_pos (by simp)]
  rfl

theorem parseAux_copy_inq (f : List Char) (h : '"' ∉ f) :
    ∀ rest cur, parseLineAux (f ++ rest) true cur = parseLineAux rest true (cur ++ f) := by
  induction f with
  | nil => intro rest cur; rw [List.nil_append, List.append_nil]
  | cons c t ih =>
    intro rest cur
    rw [List.cons_append,
      parseAux_append c _ _ _ (fun hc => h (hc ▸ List.mem_cons_self c t)) (by simp),
      ih (fun hc => h (List.mem_cons_of_mem _ hc)), List.append_assoc]
    rfl

theorem replaceAllF_not_head (p : Char) (pt rep : List Char) :
    ∀ fuel s, p ∉ s → replaceAllF fuel (p :: pt) rep s = s := by
  intro fuel
  induction fuel with
  | zero => intro s _; rw [replaceAllF]
  | succ n ih =>
    intro s hs
    cases s with
    | nil => rw [replaceAllF]
    | cons c rest =>
      rw [replaceAllF]
      rw [if_neg (by
        intro heq
        rw [List.length_cons, List.take_succ_cons] at heq
        injection heq with h1 _
        exact hs (h1 ▸ List.mem_cons_self c rest))]
      rw [ih rest (fun hc => hs (List.mem_cons_of_mem _ hc))]

theorem cleanValue_of_clean (f : List Char) (hq : '"' ∉ f) (ht : jsTrim f = f) :
    cleanValue f = f := by
  cases f with
  | nil => decide
  | cons c t =>
    rw [cleanValue]
    rw [if_neg (by
      intro hcon
      have := hcon.1
      simp only [List.head?_cons, Option.some_inj] at this
      exact hq (this ▸ List.mem_cons_self c t))]
    rw [replaceAll, replaceAllF_not_head '"' ['"'] ['"'] _ _ hq]
    exact ht

theorem cleanValue_fieldAcc (f : List Char) (hq : '"' ∉ f) (ht : jsTrim f = f) :
    cleanValue (if f = [] then ['"'] else f) = f := by
  by_cases hf : f = []
  · rw [if_pos hf, hf]
    decide
  · rw [if_neg hf]
    exact cleanValue_of_clean f hq ht

end CSVParser

namespace CSVParser

open CSVUpload

theorem parseAux_serField (f : List Char) (hq : '"' ∉ f)
    (rest : List Char) (hrest : rest.head? ≠ some '"') :
    parseLineAux (serializeField f ++ rest) false [] =
      parseLineAux rest false (if f = [] then ['"'] else f) := by
  cases f with
  | nil =>
    show parseLineAux ('"' :: '"' :: rest) false [] = _
    rw [parseAux_escape]
    rfl
  | cons c f =>
    have hc : c ≠ '"' := fun h => hq (h ▸ List.mem_cons_self c f)
    show parseLineAux ('"' :: ((c :: f) ++ ['"'] ++ rest)) false [] = _
    rw [show ((c :: f) ++ ['"'] ++ rest) = ((c :: f) ++ ('"' :: rest)) by simp]
    rw [parseAux_quote _ (by simp [hc]) _ _, Bool.not_false]
    rw [parseAux_copy_inq (c :: f) hq ('"' :: rest) []]
    rw [parseAux_quote rest hrest, Bool.not_true]
    rw [if_neg (by simp)]
    rfl

theorem parseAux_serRow (fs : List (List Char)) (hne : fs ≠ [])
    (hc : ∀ f ∈ fs, '"' ∉ f ∧ jsTrim f = f) :
    parseLineAux (serializeRow fs) false [] = fs := by
  induction fs with
  | nil => exact absurd rfl hne
  | cons f t ih =>
    obtain ⟨hq, ht⟩ := hc f (List.mem_cons_self _ _)
    cases t with
    | nil =>
      rw [serializeRow_one, show serializeField f = serializeField f ++ [] by simp]
      rw [parseAux_serField f hq [] (by simp)]
      rw [parseLineAux]
      rw [cleanValue_fieldAcc f hq ht]
    | cons g t2 =>
      rw [serializeRow_cons]
      rw [parseAux_serField f hq _ (by simp)]
      rw [parseAux_comma]
      rw [cleanValue_fieldAcc f hq ht]
      rw [ih (by simp) (fun x hx => hc x (List.mem_cons_of_mem _ hx))]

end CSVParser

namespace CSVParser

open CSVUpload

theorem parseAux_plaincopy (xs : List Char)
    (h : ∀ c ∈ xs, c ≠ '"' ∧ c ≠ ',') :
    ∀ rest cur, parseLineAux (xs ++ rest) false cur = parseLineAux rest false (cur ++ xs) := by
  induction xs with
  | nil => intro rest cur; rw [List.nil_append, List.append_nil]
  | cons c t ih =>
    intro rest cur
    obtain ⟨h1, h2⟩ := h c (List.mem_cons_self _ _)
    rw [List.cons_append, parseAux_append c _ _ _ h1 (by simp [h2]),
      ih (fun x hx => h x (List.mem_cons_of_mem _ hx)), List.append_assoc]
    rfl

theorem parseAux_plain_fields (hs : List (List Char)) (hne : hs ≠ [])
    (hp : ∀ f ∈ hs, ∀ c ∈ f, c ≠ '"' ∧ c ≠ ',') :
    parseLineAux (List.intercalate [','] hs) false [] = hs.map cleanValue := by
  induction hs with
  | nil => exact absurd rfl hne
  | cons f t ih =>
    cases t with
    | nil =>
      rw [show List.intercalate [','] [f] = f by simp [List.intercalate]]
      rw [show f = f ++ [] by simp, parseAux_plaincopy f (hp f (List.mem_cons_self _ _))]
      rw [parseLineAux]
      simp
    | cons g t2 =>
      rw [intercalate_cons_cons, List.append_assoc]
      rw [parseAux_plaincopy f (hp f (List.mem_cons_self _ _))]
      rw [show [','] ++ List.intercalate [','] (g :: t2) =
        ',' :: List.intercalate [','] (g :: t2) by simp]
      rw [parseAux_comma]
      rw [ih (by simp) (fun x hx => hp x (List.mem_cons_of_mem _ hx))]
      simp

theorem getD_range (l : List (List Char)) :
    (List.range l.length).map (fun i => l.getD i []) = l := by
  induction l with
  | nil => simp
  | cons a t ih =>
    rw [List.length_cons, List.range_succ_eq_map]
    rw [List.map_cons, List.map_map]
    rw [show ((fun i => (a :: t).getD i []) ∘ Nat.succ) = fun i => t.getD i [] by
      funext i; simp]
    rw [ih]
    rfl

theorem filterMap_congr_some (g : List (List Char) → Option (List (List Char)))
    (l : List (List (List Char))) (h : ∀ a ∈ l, g a = some a) :
    l.filterMap g = l := by
  induction l with
  | nil => simp
  | cons a t ih =>
    rw [List.filterMap_cons, h a (List.mem_cons_self _ _),
      ih (fun x hx => h x (List.mem_cons_of_mem _ hx))]

end CSVParser

/-- C8: parsing the cleaned-CSV export re-yields every cleaned field
unchanged, for any rows of 7 cleaned fields that contain no double
quote and carry no surrounding whitespace — quoted commas and quoted
newlines inside fields round-trip exactly. -/
theorem c8_parse_serialize_roundtrip (rows : List (List (List Char)))
    (hlen : ∀ r ∈ rows, r.length = 7)
    (hf : ∀ r ∈ rows, ∀ f ∈ r, '"' ∉ f ∧ jsTrim f = f) :
    CSVParser.parse (CSVUpload.serializeCleanedCSV rows) = rows := by
  have hne : ∀ r ∈ rows, r ≠ [] := by
    intro r hr h
    have := hlen r hr
    rw [h] at this
    simp at this
  have hq : ∀ r ∈ rows, ∀ f ∈ r, '"' ∉ f := fun r hr f hfr => (hf r hr f hfr).1
  have hsplit : CSVParser.splitCSVLines (CSVUpload.serializeCleanedCSV rows) =
      (List.intercalate [','] CSVUpload.exportHeaders) :: rows.map CSVUpload.serializeRow := by
    rw [CSVUpload.serializeCleanedCSV, CSVParser.splitCSVLines]
    cases rows with
    | nil =>
      rw [List.map_nil]
      rw [show List.intercalate ['\n']
          [List.intercalate [','] CSVUpload.exportHeaders] =
        List.intercalate [','] CSVUpload.exportHeaders ++ [] by simp [List.intercalate]]
      rw [CSVParser.splitAux_plain _ (by decide) [] false []]
      rw [CSVParser.splitLinesAux]
      rw [CSVParser.pushLine, if_neg (by decide)]
      rfl
    | cons r t =>
      rw [List.map_cons, intercalate_cons_cons, List.append_assoc]
      rw [CSVParser.splitAux_plain _ (by decide) _ false []]
      rw [show ['\n'] ++ List.intercalate ['\n']
          (CSVUpload.serializeRow r :: t.map CSVUpload.serializeRow) =
        '\n' :: List.intercalate ['\n']
          (CSVUpload.serializeRow r :: t.map CSVUpload.serializeRow) by simp]
      rw [CSVParser.splitAux_nl]
      rw [← List.map_cons CSVUpload.serializeRow r t]
      rw [CSVParser.split_join (r :: t) hne hq]
      rw [CSVParser.pushLine, if_neg (by decide)]
      rfl
  have hhead : CSVParser.parseCSVLine (List.intercalate [','] CSVUpload.exportHeaders) =
      CSVUpload.exportHeaders := by
    rw [CSVParser.parseCSVLine, CSVParser.parseAux_plain_fields _ (by decide) (by decide)]
    decide
  rw [CSVParser.parse, hsplit]
  simp only []
  rw [hhead]
  rw [if_neg (by decide)]
  rw [List.filterMap_map]
  apply CSVParser.filterMap_congr_some
  intro r hr
  simp only [Function.comp_apply]
  rw [jsTrim_serializeRow r (hne r hr)]
  obtain ⟨mid, hmid⟩ := serializeRow_shape r (hne r hr)
  rw [if_neg (by rw [hmid]; simp)]
  rw [CSVParser.parseCSVLine, CSVParser.parseAux_serRow r (hne r hr) (hf r hr)]
  rw [if_neg (by simpa using hne r hr)]
  rw [show CSVUpload.exportHeaders.length = r.length by rw [hlen r hr]; rfl]
  rw [CSVParser.getD_range r]

/-- A cleaned row whose neighbourhood field contains a comma and whose
text field contains a newline. -/
def c8wrows : List (List (List Char)) :=
  [["r1".toList, "l1".toList, "Baixa, Lisboa".toList,
    "2023-01-10 00:00:00".toList, "en".toList,
    "line one\nline two".toList, "false".toList]]

/-- Witness for C8 at a concrete row with a quoted comma and a quoted
newline. -/
theorem c8_parse_serialize_roundtrip_witness :
    ((∀ r ∈ c8wrows, r.length = 7) ∧
      (∀ r ∈ c8wrows, ∀ f ∈ r, '"' ∉ f ∧ jsTrim f = f)) ∧
    CSVParser.parse (CSVUpload.serializeCleanedCSV c8wrows) = c8wrows :=
  ⟨⟨by decide, by decide⟩,
   c8_parse_serialize_roundtrip c8wrows (by decide) (by decide)⟩

end ClaimC8
